import Mathlib

/-!
Verification development for the TFRT-style runtime repository.

This file gives a shallow embedding, in Lean, of the two subsystems the
claims concern:

* the MLIR-to-BEF converter (`lib/bef_converter/mlir_to_bef/mlir_to_bef.cc`):
  the entity table collected in pass 1, the entity index of pass 2, and the
  section / function / kernel emitters of pass 3;
* the core-runtime kernels (`lib/core_runtime/kernels.cc`): the tensor
  predicate used by `corert.cond` and `corert.while`, the while-loop
  iteration driver, and `corert.const_string_tensor`.

Modelling conventions:

* machine integers are `Nat`, with `% 2 ^ w` taken where the code truncates;
* bytes are `Nat` values below 256 by construction;
* hash maps keyed by pointers (`DenseMap<Operation*>`, `DenseMap<Region*>`)
  are modelled as insertion-ordered association lists keyed by the structural
  value of the operation / region: MLIR uniques types and attributes, so for
  those value identity coincides with pointer identity, while for operations
  and regions the value-keyed model identifies structurally identical nodes
  (the maps behave identically on the inputs the claims are about);
* code of this repository that is not under `src/` (the `BefEmitter` byte
  buffer, `bef_encoding.h` constants, `BefAttrEmitter`, stream analysis,
  `BefCompilationUnits`) is modelled from the specification; every such
  definition carries a doc comment starting with `Modelled from the spec:`.
-/

namespace Tfrt

/-! ### Variable-byte integers (spec section 4.1 / section 6)

The VBR format: 7-bit groups, highest group first, MSB of a byte set on
every byte except the last. The recursion is fuel-indexed (fuel bounds the
number of groups) so that everything reduces inside the kernel; `vbrPre m`
instantiates the fuel with `m` itself, which is always sufficient. -/

/-- Modelled from the spec: high 7-bit groups of a VBR integer, each emitted
with the continuation bit (0x80) set. `fuel` bounds the recursion depth and
is sufficient whenever `m ≤ fuel`. -/
def vbrPreF : Nat → Nat → List Nat
  | 0, _ => []
  | fuel + 1, m => if m = 0 then [] else vbrPreF fuel (m / 128) ++ [m % 128 + 128]

/-- Modelled from the spec: the continuation-bit groups of a VBR integer. -/
def vbrPre (m : Nat) : List Nat := vbrPreF m m

/-- Modelled from the spec: the bytes of a VBR-encoded unsigned integer:
all groups above the lowest carry the continuation bit, highest group
first, and the lowest 7-bit group comes last without the bit. -/
def vbrBytes (n : Nat) : List Nat := vbrPre (n / 128) ++ [n % 128]

/-- Modelled from the spec: the number of bytes `EmitVbrInt` produces
(`GetSizeOfVbrInt` in the source). -/
def GetSizeOfVbrInt (n : Nat) : Nat := (vbrBytes n).length

/-- Little-endian four-byte encoding of a 32-bit value (`EmitInt4` payload). -/
def le4 (v : Nat) : List Nat :=
  [v % 256, v / 256 % 256, v / 65536 % 256, v / 16777216 % 256]

/-! ### The byte emitter (spec section 4.1)

`BefEmitter` (the base class of `BEFFileEmitter`) lives in
`include/tfrt/bef_converter/bef_emitter.h`, which is not under `src/`; it is
modelled from spec section 4.1 together with its visible uses in
`mlir_to_bef.cc` (`EmitByte`, `EmitBytes`, `EmitInt4`, `EmitVbrInt`,
`EmitAlignment`, `EmitEmitter`, `GetRequiredAlignment`, `size`, `result`). -/

/-- Modelled from the spec: the append-only byte buffer with its recorded
required alignment (spec section 4.1). -/
structure BefEmitter where
  result : List Nat := []
  required_alignment : Nat := 1
deriving DecidableEq

/-- Modelled from the spec: the empty emitter. -/
def BefEmitter.empty : BefEmitter := {}

/-- Modelled from the spec: current length of the emitted buffer. -/
def BefEmitter.size (e : BefEmitter) : Nat := e.result.length

/-- Modelled from the spec: append one byte. -/
def BefEmitter.EmitByte (e : BefEmitter) (b : Nat) : BefEmitter :=
  { e with result := e.result ++ [b] }

/-- Modelled from the spec: append a sequence of bytes. -/
def BefEmitter.EmitBytes (e : BefEmitter) (bs : List Nat) : BefEmitter :=
  { e with result := e.result ++ bs }

/-- Number of zero bytes needed to pad a buffer of size `sz` to `alignment`. -/
def padCount (sz alignment : Nat) : Nat := (alignment - sz % alignment) % alignment

/-- Modelled from the spec: pad with zero bytes until the size is a multiple
of `alignment`, and record the alignment requirement. -/
def BefEmitter.EmitAlignment (e : BefEmitter) (alignment : Nat) : BefEmitter :=
  { result := e.result ++ List.replicate (padCount e.size alignment) 0,
    required_alignment := max e.required_alignment alignment }

/-- Modelled from the spec: emit a guaranteed four-byte little-endian
integer, aligned to four bytes. -/
def BefEmitter.EmitInt4 (e : BefEmitter) (v : Nat) : BefEmitter :=
  (e.EmitAlignment 4).EmitBytes (le4 (v % 2 ^ 32))

/-- Modelled from the spec: emit a VBR-encoded integer. -/
def BefEmitter.EmitVbrInt (e : BefEmitter) (n : Nat) : BefEmitter :=
  e.EmitBytes (vbrBytes n)

/-- Modelled from the spec: append a child emitter, first padding to the
child's required alignment, and join the alignment requirements. -/
def BefEmitter.EmitEmitter (e : BefEmitter) (child : BefEmitter) : BefEmitter :=
  let e' := e.EmitAlignment child.required_alignment
  { result := e'.result ++ child.result,
    required_alignment := max e'.required_alignment child.required_alignment }

/-- Modelled from the spec: the numeric values of `BEFSectionID` come from
`bef_encoding.h`, which is not under `src/`; the claims rely only on the ids
being distinct, so the ids are numbered here in declaration order. -/
inductive BEFSectionID where
  | kLocationFilenames
  | kLocationPositions
  | kStrings
  | kAttributes
  | kKernels
  | kTypes
  | kFunctionIndex
  | kFunctions
  | kAttributeTypes
  | kAttributeNames
  | kRegisterTypes
  | kDebugInfo
deriving DecidableEq, Repr

/-- Modelled from the spec: the byte value of a section id. -/
def BEFSectionID.toByte : BEFSectionID → Nat
  | .kLocationFilenames => 0
  | .kLocationPositions => 1
  | .kStrings => 2
  | .kAttributes => 3
  | .kKernels => 4
  | .kTypes => 5
  | .kFunctionIndex => 6
  | .kFunctions => 7
  | .kAttributeTypes => 8
  | .kAttributeNames => 9
  | .kRegisterTypes => 10
  | .kDebugInfo => 11

/-- Section framing, `BEFFileEmitter::EmitSection` (mlir_to_bef.cc:662).
The section starts with its id byte; `LENGTH_AND_ALIGNMENT` is
`(SECTION_LENGTH << 1) | SECTION_ALIGNMENT_FLAG` (where `x << 1` is `2 * x`
and, the shifted length being even, `| 1` is `+ 1`); if the payload needs
alignment greater than one and the natural payload position would be
misaligned, the flag is set and an alignment byte plus padding follows. -/
def BefEmitter.EmitSection (e : BefEmitter) (section_id : BEFSectionID)
    (section_data : List Nat) (alignment : Nat := 1) : BefEmitter :=
  let e1 := e.EmitByte section_id.toByte
  let shifted_section_length := 2 * section_data.length
  if alignment > 1 ∧ (e1.size + GetSizeOfVbrInt shifted_section_length) % alignment ≠ 0 then
    let e2 := e1.EmitVbrInt (shifted_section_length + 1)
    let e3 := e2.EmitByte alignment
    let e4 := e3.EmitAlignment alignment
    e4.EmitBytes section_data
  else
    (e1.EmitVbrInt shifted_section_length).EmitBytes section_data

/-- Section framing with the child emitter's data and required alignment
(the two-argument `EmitSection` overload, mlir_to_bef.cc:695). -/
def BefEmitter.EmitSectionE (e : BefEmitter) (section_id : BEFSectionID)
    (child : BefEmitter) : BefEmitter :=
  e.EmitSection section_id child.result child.required_alignment

/-- The bytes a single `EmitSection` call appends when the emitter has
`pos` bytes so far; used to state the section-layout theorems. -/
def sectionFrame (pos : Nat) (section_id : BEFSectionID)
    (section_data : List Nat) (alignment : Nat) : List Nat :=
  let shifted := 2 * section_data.length
  if alignment > 1 ∧ (pos + 1 + GetSizeOfVbrInt shifted) % alignment ≠ 0 then
    section_id.toByte ::
      (vbrBytes (shifted + 1) ++ alignment ::
        (List.replicate (padCount (pos + 1 + (vbrBytes (shifted + 1)).length + 1) alignment) 0 ++
          section_data))
  else
    section_id.toByte :: (vbrBytes shifted ++ section_data)

/-! ### A reader for the section structure

`parseVbrAux` and `parseSectionsF` form the reader's view of the section
framing: they decode, from a byte stream and the absolute position of its
first byte, the list of section id bytes in file order. They are used to
state (and refute) the claims about section ordering. -/

/-- Decode one VBR integer; returns the value and the remaining bytes. -/
def parseVbrAux (acc : Nat) : List Nat → Option (Nat × List Nat)
  | [] => none
  | b :: rest =>
    if b < 128 then some (acc * 128 + b, rest)
    else parseVbrAux (acc * 128 + (b - 128)) rest

/-- Decode the section stream starting at absolute file position `pos`,
returning the section id bytes in order. `fuel` bounds the number of
sections (one byte is consumed per section, so the stream length is always
sufficient fuel). -/
def parseSectionsF (fuel : Nat) (pos : Nat) (bytes : List Nat) : Option (List Nat) :=
  match bytes with
  | [] => some []
  | id :: rest =>
    match fuel with
    | 0 => none
    | fuel + 1 =>
      match parseVbrAux 0 rest with
      | none => none
      | some (lenflag, rest2) =>
        let len := lenflag / 2
        let vbrLen := rest.length - rest2.length
        if lenflag % 2 = 1 then
          match rest2 with
          | [] => none
          | align :: rest3 =>
            let pos3 := pos + 1 + vbrLen + 1
            let pad := padCount pos3 align
            if rest3.length < pad + len then none
            else
              match parseSectionsF fuel (pos3 + pad + len) (rest3.drop (pad + len)) with
              | none => none
              | some ids => some (id :: ids)
        else
          if rest2.length < len then none
          else
            match parseSectionsF fuel (pos + 1 + vbrLen + len) (rest2.drop len) with
            | none => none
            | some ids => some (id :: ids)

/-- The section id bytes of a BEF file: skip the three magic bytes, then
read the framed sections. -/
def parseSectionIds (file : List Nat) : Option (List Nat) :=
  parseSectionsF file.length 3 (file.drop 3)

/-- The concatenated frames of a list of section specifications (id,
payload, alignment), starting at absolute position `pos`; the layout the
section-order theorems compare the emitted file against. -/
def framesConcat (pos : Nat) : List (BEFSectionID × List Nat × Nat) → List Nat
  | [] => []
  | s :: restl =>
    sectionFrame pos s.1 s.2.1 s.2.2
      ++ framesConcat (pos + (sectionFrame pos s.1 s.2.1 s.2.2).length) restl

/-- Fold `EmitSection` over a list of section specifications. -/
def emitSections (e : BefEmitter) (l : List (BEFSectionID × List Nat × Nat)) : BefEmitter :=
  l.foldl (fun e s => e.EmitSection s.1 s.2.1 s.2.2) e

/-! ### The IR data model

The converter consumes MLIR: a module holding operations; operations have a
name, operands, result types, an attribute dictionary, a location, and
nested regions; regions hold blocks; blocks hold typed arguments and
operations. MLIR types and attributes are uniqued by the context, so they
are modelled as plain values identified structurally. Operand references
are block-relative: a block argument, a result of an earlier operation of
the same block, or a reference into an outer region (which the converter
rejects). -/

/-- An MLIR type, identified by its printed textual form; `isInteger`
records whether the type is an `IntegerType` (used by
`EntityTable::AddAttributeType`). -/
structure MLType where
  print : String
  isInteger : Bool := false
deriving DecidableEq, Repr

/-- A scalar (non-array) MLIR attribute value. `symbolRef` covers both flat
symbol references (`nested = []`) and nested ones; `unsupported` stands for
the attribute kinds `BefAttrEmitter::IsSupportedAttribute` rejects. -/
inductive MLScalarAttr where
  | boolAttr (b : Bool)
  | intAttr (ty : MLType) (v : Int)
  | floatAttr (ty : MLType) (bits : Nat)
  | strAttr (s : String)
  | symbolRef (root : String) (nested : List String)
  | typeAttr (ty : MLType)
  | denseAttr (ty : MLType) (shape : List Nat) (data : List Nat)
  | unitAttr
  | unsupported (desc : String)
deriving DecidableEq, Repr

/-- An MLIR attribute: a scalar or an array of scalars. (Deeper aggregate
nesting exists in MLIR but no claim concerns it, so arrays are modelled one
level deep.) -/
inductive MLAttr where
  | scalar (a : MLScalarAttr)
  | arrayAttr (elems : List MLScalarAttr)
deriving DecidableEq, Repr

/-- A use of an SSA value inside a block: a block argument, result `res` of
the block's operation number `op`, or a value defined in an outer region
(the case `mlir_to_bef.cc` rejects with `references to outer regions`). -/
inductive ValueRef where
  | arg (i : Nat)
  | opResult (op : Nat) (res : Nat)
  | outer
deriving DecidableEq, Repr

/-- The location of an operation: an optional `FileLineColLoc` payload
(filename, line, column) and an optional `NameLoc` name (the debug-info
name), after the `FusedLoc` / `CallSiteLoc` unwrapping performed by
`AddLocation` / `AddDebugInfo`. -/
structure MLLoc where
  fileLineCol : Option (String × Nat × Nat) := none
  nameLoc : Option String := none
deriving DecidableEq, Repr

/-- The data a `mlir::FuncOp` carries beyond a generic operation: its symbol
name, its declared function type, and whether it is external (body-less). -/
structure FuncInfo where
  fname : String
  inputs : List MLType
  results : List MLType
  isExternal : Bool := false
deriving DecidableEq, Repr

/-- The region-free part of an operation. `funcInfo` is present exactly for
`mlir::FuncOp` operations; `symName` is the operation's symbol (for symbol
table lookups); `isCompiledModule` marks a compiled-module holder whose
subtree `BefCompilationUnits::IsInCompiledModule` reports as compiled. -/
structure OpHead where
  name : String
  operands : List ValueRef := []
  resultTypes : List MLType := []
  attrs : List (String × MLAttr) := []
  loc : MLLoc := {}
  funcInfo : Option FuncInfo := none
  symName : Option String := none
  isCompiledModule : Bool := false
deriving DecidableEq, Repr

mutual
/-- An MLIR operation: its head data plus nested regions. -/
inductive MLOperation where
  | mk (head : OpHead) (regions : List MLRegion) : MLOperation
/-- An MLIR region: a list of blocks. -/
inductive MLRegion where
  | mk (blocks : List MLBlock) : MLRegion
/-- An MLIR block: typed block arguments plus a list of operations. -/
inductive MLBlock where
  | mk (argTypes : List MLType) (ops : List MLOperation) : MLBlock
end

mutual
def decEqOp : (a b : MLOperation) → Decidable (a = b)
  | .mk h1 r1, .mk h2 r2 =>
    match decEq h1 h2 with
    | isTrue hh =>
      match decEqRegions r1 r2 with
      | isTrue hr => isTrue (by rw [hh, hr])
      | isFalse hr => isFalse (by intro h; injection h; contradiction)
    | isFalse hh => isFalse (by intro h; injection h; contradiction)
termination_by structural a => a
def decEqRegions : (a b : List MLRegion) → Decidable (a = b)
  | [], [] => isTrue rfl
  | [], _ :: _ => isFalse (by intro h; injection h)
  | _ :: _, [] => isFalse (by intro h; injection h)
  | x :: xs, y :: ys =>
    match decEqRegion x y with
    | isTrue hx =>
      match decEqRegions xs ys with
      | isTrue hxs => isTrue (by rw [hx, hxs])
      | isFalse hxs => isFalse (by intro h; injection h; contradiction)
    | isFalse hx => isFalse (by intro h; injection h; contradiction)
termination_by structural a => a
def decEqRegion : (a b : MLRegion) → Decidable (a = b)
  | .mk b1, .mk b2 =>
    match decEqBlocks b1 b2 with
    | isTrue hb => isTrue (by rw [hb])
    | isFalse hb => isFalse (by intro h; injection h; contradiction)
termination_by structural a => a
def decEqBlocks : (a b : List MLBlock) → Decidable (a = b)
  | [], [] => isTrue rfl
  | [], _ :: _ => isFalse (by intro h; injection h)
  | _ :: _, [] => isFalse (by intro h; injection h)
  | x :: xs, y :: ys =>
    match decEqBlock x y with
    | isTrue hx =>
      match decEqBlocks xs ys with
      | isTrue hxs => isTrue (by rw [hx, hxs])
      | isFalse hxs => isFalse (by intro h; injection h; contradiction)
    | isFalse hx => isFalse (by intro h; injection h; contradiction)
termination_by structural a => a
def decEqBlock : (a b : MLBlock) → Decidable (a = b)
  | .mk a1 o1, .mk a2 o2 =>
    match decEq a1 a2 with
    | isTrue ha =>
      match decEqOps o1 o2 with
      | isTrue ho => isTrue (by rw [ha, ho])
      | isFalse ho => isFalse (by intro h; injection h; contradiction)
    | isFalse ha => isFalse (by intro h; injection h; contradiction)
termination_by structural a => a
def decEqOps : (a b : List MLOperation) → Decidable (a = b)
  | [], [] => isTrue rfl
  | [], _ :: _ => isFalse (by intro h; injection h)
  | _ :: _, [] => isFalse (by intro h; injection h)
  | x :: xs, y :: ys =>
    match decEqOp x y with
    | isTrue hx =>
      match decEqOps xs ys with
      | isTrue hxs => isTrue (by rw [hx, hxs])
      | isFalse hxs => isFalse (by intro h; injection h; contradiction)
    | isFalse hx => isFalse (by intro h; injection h; contradiction)
termination_by structural a => a
end

instance : DecidableEq MLOperation := decEqOp
instance : DecidableEq MLRegion := decEqRegion
instance : DecidableEq MLBlock := decEqBlock

instance : Inhabited MLOperation := ⟨.mk { name := "" } []⟩
instance : Inhabited MLRegion := ⟨.mk []⟩
instance : Inhabited MLBlock := ⟨.mk [] []⟩
instance : Inhabited ValueRef := ⟨.outer⟩
instance : Inhabited MLType := ⟨{ print := "" }⟩

/-- The head data of an operation. -/
def MLOperation.head : MLOperation → OpHead
  | .mk h _ => h

/-- The nested regions of an operation. -/
def MLOperation.regions : MLOperation → List MLRegion
  | .mk _ rs => rs

/-- The blocks of a region. -/
def MLRegion.blocks : MLRegion → List MLBlock
  | .mk bs => bs

/-- The argument types of a block. -/
def MLBlock.argTypes : MLBlock → List MLType
  | .mk ts _ => ts

/-- The operations of a block. -/
def MLBlock.ops : MLBlock → List MLOperation
  | .mk _ os => os

/-- The number of block arguments (`Block::getNumArguments`). -/
def MLBlock.getNumArguments (b : MLBlock) : Nat := b.argTypes.length

/-- An MLIR module: its top-level operations (its single body block). -/
structure MLModule where
  ops : List MLOperation
deriving DecidableEq

/-- The `tfrt.return` kernel gets special case handling (`IsReturn`,
mlir_to_bef.cc:73). -/
def IsReturn (op : MLOperation) : Bool := op.head.name == "tfrt.return"

/-- Whether a `FuncOp` carries the `tfrt.native` attribute (`IsNativeFunc`,
mlir_to_bef.cc:79). -/
def IsNativeFunc (op : MLOperation) : Bool :=
  (op.head.attrs.lookup "tfrt.native").isSome

/-- Whether a `FuncOp` carries the `tfrt.sync` attribute (`IsSyncFunc`,
mlir_to_bef.cc:83). -/
def IsSyncFunc (op : MLOperation) : Bool :=
  (op.head.attrs.lookup "tfrt.sync").isSome

/-- The type of the SSA value `v` inside block `b` (block-argument type or
result type of the defining operation). -/
def MLBlock.typeOfValue (b : MLBlock) (v : ValueRef) : MLType :=
  match v with
  | .arg i => b.argTypes.getD i default
  | .opResult j k => ((b.ops.getD j default).head.resultTypes).getD k default
  | .outer => default

/-- Success or failure, `enum class LogicalResult` (mlir_to_bef.cc:68). -/
inductive LogicalResult where
  | Success
  | Failure
deriving DecidableEq, Repr

/-- Function kinds recorded in the function table (`FunctionKind`). -/
inductive FunctionKind where
  | kBEFFunction
  | kSyncBEFFunction
  | kNativeFunction
deriving DecidableEq, Repr

/-- Modelled from the spec: the numeric value of a `FunctionKind` byte comes
from `bef_encoding.h`, which is not under `src/`; distinct values in
declaration order. -/
def FunctionKind.toByte : FunctionKind → Nat
  | .kBEFFunction => 0
  | .kSyncBEFFunction => 1
  | .kNativeFunction => 2

/-- An MLIR function type: input and result types. -/
structure FunctionType where
  inputs : List MLType
  results : List MLType
deriving DecidableEq, Repr

/-- `GetRegionFunctionType` (mlir_to_bef.cc:85): the function type of a
region body — block-argument types as inputs, the operand types of the
trailing `tfrt.return` as results. -/
def GetRegionFunctionType (region : MLRegion) : FunctionType :=
  let block := region.blocks.headD default
  let last_op := (block.ops.getLast?).getD default
  { inputs := block.argTypes,
    results := last_op.head.operands.map block.typeOfValue }

/-- `EntityTable::FunctionEntry` (mlir_to_bef.cc:122). `region = none` marks
an externally-defined (native) function. `parent` additionally records the
operation holding the region (`Region::getParentOp` in MLIR, used by
`BEFFunctionEmitter::EmitFunction` to look up the location offset); in the
source this is reachable from the region pointer. -/
structure FunctionEntry where
  name : String
  type : FunctionType
  kind : FunctionKind
  region : Option MLRegion := none
  parent : MLOperation
deriving DecidableEq

/-- Whether the entry is a native (externally defined) function. -/
def FunctionEntry.IsNative (f : FunctionEntry) : Bool :=
  f.kind == FunctionKind.kNativeFunction

/-- Whether the entry is a synchronous BEF function. -/
def FunctionEntry.IsSync (f : FunctionEntry) : Bool :=
  f.kind == FunctionKind.kSyncBEFFunction

/-- Insert-or-assign on an insertion-ordered association list (the
behaviour of `map[key] = value` on the LLVM map types). -/
def assocSet {α β : Type} [BEq α] (k : α) (v : β) : List (α × β) → List (α × β)
  | [] => [(k, v)]
  | (k', v') :: rest => if k' == k then (k, v) :: rest else (k', v') :: assocSet k v rest

/-- Insert-if-absent on an insertion-ordered association list (the
behaviour of `try_emplace` / `insert` on the LLVM map types: the first
insertion wins). -/
def assocInsertNew {α β : Type} [BEq α] (k : α) (v : β) (l : List (α × β)) : List (α × β) :=
  if (l.lookup k).isSome then l else l ++ [(k, v)]

/-! ### The entity table (pass 1, spec section 4.2) -/

/-- `EntityTable` (mlir_to_bef.cc:113): the interned entities collected in
the first pass. Uniquing sets and maps are insertion-ordered association
lists; `strings` is the key set of the `StringMap` (uniqued, sorted only at
emission). -/
structure EntityTable where
  attributes : List MLAttr := []
  kernels : List String := []
  kernel_ids : List (String × Nat) := []
  functions : List FunctionEntry := []
  region_function_ids : List (MLRegion × Nat) := []
  named_function_ids : List (String × Nat) := []
  types : List MLType := []
  type_ids : List (MLType × Nat) := []
  strings : List String := []
  location_filenames : List String := []
  location_filenames_index : List (String × Nat) := []
  location_positions : List (MLOperation × (Nat × Nat × Nat)) := []
  debug_info : List (MLOperation × String) := []
deriving DecidableEq

/-- `EntityTable::AddString` (mlir_to_bef.cc:193): `strings[string] = 0`
inserts the key if absent. -/
def EntityTable.AddString (t : EntityTable) (s : String) : EntityTable :=
  if t.strings.contains s then t else { t with strings := t.strings ++ [s] }

/-- `EntityTable::AddType` (mlir_to_bef.cc:197): ignore the type if seen
before; otherwise record it with index `types.size()` and add its printed
name to the string pool. -/
def EntityTable.AddType (t : EntityTable) (type : MLType) : EntityTable :=
  if (t.type_ids.lookup type).isSome then t
  else
    let t' := { t with type_ids := t.type_ids ++ [(type, t.types.length)],
                       types := t.types ++ [type] }
    t'.AddString type.print

/-- `EntityTable::GetTypeIndex` (mlir_to_bef.cc:209); the lookup is asserted
to succeed in the source, `0` stands for the unreachable missing case. -/
def EntityTable.GetTypeIndex (t : EntityTable) (type : MLType) : Nat :=
  (t.type_ids.lookup type).getD 0

/-- `EntityTable::AddNativeFunction` (mlir_to_bef.cc:215). -/
def EntityTable.AddNativeFunction (t : EntityTable) (op : MLOperation) : EntityTable :=
  let fi := op.head.funcInfo.getD { fname := "", inputs := [], results := [] }
  let function_type : FunctionType := { inputs := fi.inputs, results := fi.results }
  let t := fi.inputs.foldl EntityTable.AddType t
  let t := fi.results.foldl EntityTable.AddType t
  let name := fi.fname
  let t := t.AddString name
  { t with named_function_ids := assocSet name t.functions.length t.named_function_ids,
           functions := t.functions ++
             [{ name := name, type := function_type, kind := .kNativeFunction,
                region := none, parent := op }] }

/-- `EntityTable::AddFunction` (mlir_to_bef.cc:229). Returns the updated
table, the result, and any diagnostic emitted. -/
def EntityTable.AddFunction (t : EntityTable) (region : MLRegion) (name : String)
    (func_kind : FunctionKind) (parent : MLOperation) :
    LogicalResult × EntityTable × List String :=
  if region.blocks.length ≠ 1 then
    (.Failure, t, ["multi-block regions cannot be emitted to BEF files"])
  else
    let t := (region.blocks.headD default).argTypes.foldl EntityTable.AddType t
    let t := t.AddString name
    let t := { t with
      region_function_ids := assocSet region t.functions.length t.region_function_ids,
      named_function_ids := assocSet name t.functions.length t.named_function_ids,
      functions := t.functions ++
        [{ name := name, type := GetRegionFunctionType region, kind := func_kind,
           region := some region, parent := parent }] }
    (.Success, t, [])

/-- `EntityTable::GetFunctionID` (mlir_to_bef.cc:249); asserted to succeed
in the source. -/
def EntityTable.GetFunctionID (t : EntityTable) (region : MLRegion) : Nat :=
  (t.region_function_ids.lookup region).getD 0

/-- `EntityTable::GetFunctionNamed` (mlir_to_bef.cc:257): the index of the
named function, `-1` if absent. -/
def EntityTable.GetFunctionNamed (t : EntityTable) (name : String) : Int :=
  match t.named_function_ids.lookup name with
  | none => -1
  | some i => (i : Int)

/-- `EntityTable::AddKernel` (mlir_to_bef.cc:263). -/
def EntityTable.AddKernel (t : EntityTable) (kernel : MLOperation) : EntityTable :=
  let name := kernel.head.name
  if (t.kernel_ids.lookup name).isSome then t
  else
    let t' := { t with kernel_ids := t.kernel_ids ++ [(name, t.kernels.length)],
                       kernels := t.kernels ++ [name] }
    t'.AddString name

/-- `EntityTable::GetKernelID` (mlir_to_bef.cc:274); asserted to succeed in
the source. -/
def EntityTable.GetKernelID (t : EntityTable) (kernel : MLOperation) : Nat :=
  (t.kernel_ids.lookup kernel.head.name).getD 0

/-- `EntityTable::AddDebugInfo` (mlir_to_bef.cc:280): record the `NameLoc`
name, if any, for the operation (the `FusedLoc` / `CallSiteLoc` unwrapping
is pre-applied in the `MLLoc` model). -/
def EntityTable.AddDebugInfo (t : EntityTable) (op : MLOperation) : EntityTable :=
  match op.head.loc.nameLoc with
  | none => t
  | some name => { t with debug_info := assocInsertNew op name t.debug_info }

/-- `EntityTable::AddLocation` (mlir_to_bef.cc:310): intern the filename and
record the `(filename index, line, column)` tuple for the operation. -/
def EntityTable.AddLocation (t : EntityTable) (op : MLOperation) : EntityTable :=
  let fl := op.head.loc.fileLineCol.getD ("", 0, 0)
  let filename := fl.1
  let line := fl.2.1
  let col := fl.2.2
  let next_filename_index := t.location_filenames.length
  match t.location_filenames_index.lookup filename with
  | some i =>
    { t with location_positions := assocInsertNew op (i, line, col) t.location_positions }
  | none =>
    { t with
      location_filenames := t.location_filenames ++ [filename],
      location_filenames_index :=
        t.location_filenames_index ++ [(filename, next_filename_index)],
      location_positions :=
        assocInsertNew op (next_filename_index, line, col) t.location_positions }

/-- The MLIR type of an attribute value (`Attribute::getType`), as far as
`AddAttributeType` inspects it: integer attributes carry their integer
type, boolean attributes have type `i1`, float attributes their float
type; other kinds have no type of interest here. -/
def MLScalarAttr.getType : MLScalarAttr → Option MLType
  | .intAttr ty _ => some ty
  | .boolAttr _ => some { print := "i1", isInteger := true }
  | .floatAttr ty _ => some ty
  | _ => none

/-- Whether the scalar is a `FloatAttr`. -/
def MLScalarAttr.isFloatAttr : MLScalarAttr → Option MLType
  | .floatAttr ty _ => some ty
  | _ => none

/-- `EntityTable::AddAttributeType` for one scalar (mlir_to_bef.cc:344):
add the integer type of the attribute, and the type of a float attribute. -/
def EntityTable.AddScalarAttributeType (t : EntityTable) (a : MLScalarAttr) : EntityTable :=
  let t := match a.getType with
    | some ty => if ty.isInteger then t.AddType ty else t
    | none => t
  match a.isFloatAttr with
  | some ty => t.AddType ty
  | none => t

/-- `EntityTable::AddAttributeType` (mlir_to_bef.cc:344): scalar case plus
recursion into array attributes. -/
def EntityTable.AddAttributeType (t : EntityTable) (attr : MLAttr) : EntityTable :=
  match attr with
  | .scalar a => t.AddScalarAttributeType a
  | .arrayAttr elems => elems.foldl EntityTable.AddScalarAttributeType t

/-- The special attributes known to the converter. -/
inductive SpecialAttribute where
  | kUnknown
  | kNonStrict
  | kHasDebugInfo
deriving DecidableEq, Repr

/-- Modelled from the spec: the special-flag bit of a special attribute
(spec section 6: `0x1 = non_strict`, `0x2 = has_debug_info`); the numeric
enum values live in `core_runtime/opdefs/attributes.h`, not under `src/`. -/
def SpecialAttribute.toFlag : SpecialAttribute → Nat
  | .kUnknown => 0
  | .kNonStrict => 1
  | .kHasDebugInfo => 2

/-- Modelled from the spec: `BefAttrEmitter::ClassifyAttribute` is not under
`src/`; per spec section 4.2 and scenario B, the known special attribute is
the non-strict marker `bef.nonstrict`. -/
def ClassifyAttribute (name : String) : SpecialAttribute :=
  if name == "bef.nonstrict" then .kNonStrict else .kUnknown

/-- Modelled from the spec: `BefAttrEmitter::IsSupportedAttribute` is not
under `src/`; per spec section 4.2, unsupported attribute kinds are fatal —
the `unsupported` constructor stands for exactly those kinds. -/
def IsSupportedAttribute (attr : MLAttr) : Bool :=
  match attr with
  | .scalar (.unsupported _) => false
  | .scalar _ => true
  | .arrayAttr elems => elems.all (fun a => !(a matches .unsupported _))

/-- Modelled from the spec: `BefCompilationUnits::IsInCompiledModule` and
`SymbolTable::lookupSymbolIn` are not under `src/`. A symbol-reference
attribute targets the compiled-module subtree exactly when its root symbol
resolves, in the module's top-level symbol table, to a compiled-module
holder. -/
def symbolRefTargetsCompiled (m : MLModule) (root : String) : Bool :=
  match m.ops.find? (fun o => o.head.symName == some root) with
  | some o => o.head.isCompiledModule
  | none => false

/-- The root reference of a symbol-reference attribute
(`SymbolRefAttr::getRootReference`). -/
def MLScalarAttr.rootReference : MLScalarAttr → String
  | .symbolRef root _ => root
  | _ => ""

/-- How MLIR prints a symbol-reference attribute (`@root::@inner…`); used
for the `function … not defined` diagnostic text. -/
def printSymbolRef : MLScalarAttr → String
  | .symbolRef root nested => "@" ++ root ++ String.join (nested.map (fun s => "::@" ++ s))
  | _ => ""

/-! ### The IR walk

`mlir::Operation::walk` visits every nested operation; the default walk
order is post-order (the operations of nested regions before the operation
itself, blocks and ops in program order). Each visited operation is paired
with whether it lies in a compiled-module subtree and whether it is the
last operation of its block (`&op->getBlock()->back() == op`). -/

/-- One operation visited by the module walk. -/
structure WalkItem where
  op : MLOperation
  inCompiledModule : Bool
  isBlockBack : Bool
deriving DecidableEq

mutual
def walkOpItems (inComp : Bool) (isBack : Bool) : MLOperation → List WalkItem
  | .mk head regions =>
    let inC := inComp || head.isCompiledModule
    walkRegionsItems inC regions ++ [⟨.mk head regions, inC, isBack⟩]
termination_by structural op => op
def walkRegionsItems (inComp : Bool) : List MLRegion → List WalkItem
  | [] => []
  | r :: rs => walkRegionItems inComp r ++ walkRegionsItems inComp rs
termination_by structural l => l
def walkRegionItems (inComp : Bool) : MLRegion → List WalkItem
  | .mk blocks => walkBlocksItems inComp blocks
termination_by structural r => r
def walkBlocksItems (inComp : Bool) : List MLBlock → List WalkItem
  | [] => []
  | b :: bs => walkBlockItems inComp b ++ walkBlocksItems inComp bs
termination_by structural l => l
def walkBlockItems (inComp : Bool) : MLBlock → List WalkItem
  | .mk _ ops => walkOpsItems inComp ops
termination_by structural b => b
def walkOpsItems (inComp : Bool) : List MLOperation → List WalkItem
  | [] => []
  | [op] => walkOpItems inComp true op
  | op :: rest => walkOpItems inComp false op ++ walkOpsItems inComp rest
termination_by structural l => l
end

/-- The post-order walk of a module's operations (the module operation
itself is skipped by the callback and not listed). -/
def walkModule (m : MLModule) : List WalkItem := walkOpsItems false m.ops

/-! ### Pass 1: `EntityTable::Collect` (mlir_to_bef.cc:360) -/

/-- The state threaded through the `Collect` walk: the walk result, the
table being filled, the collected function-reference attributes
(`fn_attrs`), and the diagnostics emitted so far. -/
structure CollectResult where
  result : LogicalResult := .Success
  table : EntityTable := {}
  fn_attrs : List (MLScalarAttr × MLLoc) := []
  diags : List String := []
deriving DecidableEq

/-- Sync-function return-operand validation (mlir_to_bef.cc:429): no return
operand may be a block argument, and none may repeat; returns the first
diagnostic, if any. -/
def syncReturnCheck (index : Nat) (return_operands : List ValueRef) :
    List ValueRef → Option String
  | [] => none
  | v :: rest =>
    if v matches .arg _ then
      some ("return value " ++ toString index ++ " is an argument in a sync function")
    else if return_operands.contains v then
      some ("return value " ++ toString index ++ " is duplicated in a sync function")
    else syncReturnCheck (index + 1) (return_operands ++ [v]) rest

/-- The attribute loop of the `Collect` callback (mlir_to_bef.cc:461).
Returns the updated state and whether the callback returned early (on an
unsupported attribute). -/
def collectOpAttrs (m : MLModule) (collect_attribute_types_and_names : Bool)
    (op : MLOperation) : CollectResult → List (String × MLAttr) → CollectResult × Bool
  | acc, [] => (acc, false)
  | acc, (attr_name, attr_value) :: rest =>
    -- Skip cost attribute which is not used in runtime execution.
    if attr_name == "_tfrt_cost" then
      collectOpAttrs m collect_attribute_types_and_names op acc rest
    -- If this is a special attribute, ignore it.
    else if ClassifyAttribute attr_name ≠ .kUnknown then
      collectOpAttrs m collect_attribute_types_and_names op acc rest
    else if ¬ IsSupportedAttribute attr_value ∧ acc.result = .Success then
      ({ acc with result := .Failure,
                  diags := acc.diags ++
                    ["BEF files cannot encode the '" ++ attr_name ++ "' attribute"] },
       true)
    else
      -- bef_function_ref: a symbol ref not into the compiled module.
      let fn_ref : Option MLScalarAttr :=
        match attr_value with
        | .scalar (.symbolRef root nested) =>
          if symbolRefTargetsCompiled m root then none
          else some (.symbolRef root nested)
        | _ => none
      match fn_ref with
      | some sym =>
        collectOpAttrs m collect_attribute_types_and_names op
          { acc with fn_attrs := acc.fn_attrs ++ [(sym, op.head.loc)] } rest
      | none =>
        let t := if collect_attribute_types_and_names then
            (acc.table.AddString attr_name).AddAttributeType attr_value
          else acc.table
        -- Skip collecting array of function attributes.
        let skip_array : Bool :=
          match attr_value with
          | .arrayAttr (first :: _) =>
            match first with
            | .symbolRef _ _ => true
            | _ => false
          | _ => false
        if skip_array then
          collectOpAttrs m collect_attribute_types_and_names op { acc with table := t } rest
        else
          let t := if t.attributes.contains attr_value then t
                   else { t with attributes := t.attributes ++ [attr_value] }
          collectOpAttrs m collect_attribute_types_and_names op { acc with table := t } rest

/-- The region loop of the `Collect` callback (mlir_to_bef.cc:530): each
region of a non-function operation becomes an anonymous BEF function;
stop at the first failure. -/
def collectOpRegions (parent : MLOperation) : CollectResult → List MLRegion → CollectResult
  | acc, [] => acc
  | acc, region :: rest =>
    match acc.table.AddFunction region "" .kBEFFunction parent with
    | (.Failure, t, ds) =>
      { acc with result := .Failure, table := t, diags := acc.diags ++ ds }
    | (.Success, t, ds) =>
      collectOpRegions parent { acc with table := t, diags := acc.diags ++ ds } rest

/-- The body of the `module.walk` callback in `EntityTable::Collect`
(mlir_to_bef.cc:366). -/
def collectOp (m : MLModule) (collect_attribute_types_and_names : Bool)
    (acc : CollectResult) (item : WalkItem) : CollectResult :=
  let op := item.op
  -- Ignore operations inside compiled modules.
  if item.inCompiledModule then acc
  -- The return op gets special handling, ensure it is at the end of its block.
  else if IsReturn op then
    if ¬ item.isBlockBack then
      { acc with result := .Failure,
                 diags := acc.diags ++ ["return op must be at the end of its block"] }
    else acc
  else
    let t := (acc.table.AddLocation op).AddDebugInfo op
    -- Notice the result types of the op.
    let t := op.head.resultTypes.foldl EntityTable.AddType t
    let acc := { acc with table := t }
    -- Verify that every operand is defined inside the current region.
    if op.head.operands.any (fun o => o matches .outer) then
      { acc with result := .Failure,
                 diags := acc.diags ++
                   ["BEF executor only supports references to kernels within the current region"] }
    else
      match op.head.funcInfo with
      | some fi =>
        if IsNativeFunc op then { acc with table := acc.table.AddNativeFunction op }
        else if fi.isExternal then
          { acc with result := .Failure,
                     diags := acc.diags ++ ["external functions are not allowed"] }
        else
          let body := op.regions.headD default
          let block := body.blocks.headD default
          let last_op := (block.ops.getLast?).getD default
          if ¬ IsReturn last_op then
            { acc with result := .Failure,
                       diags := acc.diags ++ ["all functions need to have a tfrt.return"] }
          else
            match (if IsSyncFunc op then syncReturnCheck 0 [] last_op.head.operands
                   else none) with
            | some msg =>
              { acc with result := .Failure, diags := acc.diags ++ [msg] }
            | none =>
              let func_kind := if IsSyncFunc op then FunctionKind.kSyncBEFFunction
                               else FunctionKind.kBEFFunction
              match acc.table.AddFunction body fi.fname func_kind op with
              | (.Failure, t, ds) =>
                { acc with result := .Failure, table := t, diags := acc.diags ++ ds }
              | (.Success, t, ds) =>
                { acc with table := t, diags := acc.diags ++ ds }
      | none =>
        let acc := { acc with table := acc.table.AddKernel op }
        match collectOpAttrs m collect_attribute_types_and_names op acc op.head.attrs with
        | (acc, true) => acc
        | (acc, false) => collectOpRegions op acc op.regions

/-- The post-walk `fn_attrs` validation (mlir_to_bef.cc:542): every
collected function reference must resolve in the function table; the first
failure wins. -/
def resolveFnAttrs (acc : CollectResult) : List (MLScalarAttr × MLLoc) → CollectResult
  | [] => acc
  | (sym, _) :: rest =>
    if acc.table.GetFunctionNamed sym.rootReference = -1 then
      { acc with result := .Failure,
                 diags := acc.diags ++
                   ["function " ++ printSymbolRef sym ++ " not defined"] }
    else resolveFnAttrs acc rest

/-- `EntityTable::Collect` (mlir_to_bef.cc:360): the walk over every
operation, followed by the function-reference validation. -/
def EntityTable.Collect (m : MLModule) (collect_attribute_types_and_names : Bool) :
    CollectResult :=
  let acc := (walkModule m).foldl (collectOp m collect_attribute_types_and_names) {}
  if acc.result = .Success then resolveFnAttrs acc acc.fn_attrs
  else acc

/-! ### Pass 2: the entity index (mlir_to_bef.cc:558, spec section 4.3) -/

/-- `EntityIndex::FunctionIndexEntry` (mlir_to_bef.cc:585). -/
structure FunctionIndexEntry where
  name_offset : Nat
  function_offset : Nat
  type : FunctionType
  kind : FunctionKind
deriving DecidableEq

/-- `EntityIndex` (mlir_to_bef.cc:558): offsets assigned to each entity
during pass 2. -/
structure EntityIndex where
  strings_ : List (String × Nat) := []
  attribute_offsets_ : List (MLAttr × Nat) := []
  function_index_ : List FunctionIndexEntry := []
  location_position_offsets_ : List (MLOperation × Nat) := []
  debug_info_offset_ : List (MLOperation × Nat) := []
deriving DecidableEq

/-- `EntityIndex::GetStringOffset`; asserted to succeed in the source. -/
def EntityIndex.GetStringOffset (idx : EntityIndex) (s : String) : Nat :=
  (idx.strings_.lookup s).getD 0

/-- `EntityIndex::AddString`; the source asserts the string is new. -/
def EntityIndex.AddString (idx : EntityIndex) (s : String) (offset : Nat) : EntityIndex :=
  { idx with strings_ := assocInsertNew s offset idx.strings_ }

/-- `EntityIndex::GetAttributeOffset`; asserted to succeed in the source. -/
def EntityIndex.GetAttributeOffset (idx : EntityIndex) (attr : MLAttr) : Nat :=
  (idx.attribute_offsets_.lookup attr).getD 0

/-- `EntityIndex::AddAttributeOffset`; the source asserts the attribute is
new. -/
def EntityIndex.AddAttributeOffset (idx : EntityIndex) (attr : MLAttr) (offset : Nat) :
    EntityIndex :=
  { idx with attribute_offsets_ := assocInsertNew attr offset idx.attribute_offsets_ }

/-- `EntityIndex::AddFunction` (mlir_to_bef.cc:592). -/
def EntityIndex.AddFunction (idx : EntityIndex) (name : String) (offset : Nat)
    (type : FunctionType) (kind : FunctionKind) : EntityIndex :=
  { idx with function_index_ := idx.function_index_ ++
      [{ name_offset := idx.GetStringOffset name, function_offset := offset,
         type := type, kind := kind }] }

/-- `EntityIndex::AddLocationPosition` (mlir_to_bef.cc:603). -/
def EntityIndex.AddLocationPosition (idx : EntityIndex) (op : MLOperation) (offset : Nat) :
    EntityIndex :=
  { idx with location_position_offsets_ := assocSet op offset idx.location_position_offsets_ }

/-- `EntityIndex::GetLocationPositionOffset`; asserted to succeed in the
source. -/
def EntityIndex.GetLocationPositionOffset (idx : EntityIndex) (op : MLOperation) : Nat :=
  (idx.location_position_offsets_.lookup op).getD 0

/-- `EntityIndex::AddDebugInfoOffset` (mlir_to_bef.cc:613). -/
def EntityIndex.AddDebugInfoOffset (idx : EntityIndex) (op : MLOperation) (offset : Nat) :
    EntityIndex :=
  { idx with debug_info_offset_ := assocSet op offset idx.debug_info_offset_ }

/-- `EntityIndex::GetDebugInfoOffset` (mlir_to_bef.cc:617). -/
def EntityIndex.GetDebugInfoOffset (idx : EntityIndex) (op : MLOperation) : Option Nat :=
  idx.debug_info_offset_.lookup op

/-! ### Pass 3: the module emitter (mlir_to_bef.cc:706, spec section 4.7) -/

/-- Modelled from the spec: the bytes of a string as stored in the BEF
string-like sections. Each character contributes its code point reduced
mod 256; for the ASCII strings arising in practice this is exactly the
byte encoding. -/
def strBytes (s : String) : List Nat := s.data.map (fun c => c.toNat % 256)

/-- Modelled from the spec: the BEF magic and version bytes
(`{kBEFMagic1, kBEFMagic2, kBEFVersion0}`, spec section 6). -/
def kBEFMagic1 : Nat := 0xEF

/-- Modelled from the spec: second magic byte. -/
def kBEFMagic2 : Nat := 0xAB

/-- Modelled from the spec: format version byte. -/
def kBEFVersion0 : Nat := 0xAF

/-- `BEFFileEmitter::kDummyPseudoKernelCode` (mlir_to_bef.cc:655). -/
def kDummyPseudoKernelCode : Nat := 0xABABABAB

/-- `BEFFileEmitter::kDummyPseudoKernelLocation` (mlir_to_bef.cc:656). -/
def kDummyPseudoKernelLocation : Nat := 0xCDCDCDCD

/-- Insert a string into an already sorted list (ascending). -/
def insertSorted (s : String) : List String → List String
  | [] => [s]
  | x :: xs => if s ≤ x then s :: x :: xs else x :: insertSorted s xs

/-- The sorted string pool: `BEFModuleEmitter::EmitStrings` sorts the
collected strings alphabetically before emission (`std::sort`,
mlir_to_bef.cc:779); any comparison sort produces this list because the
pool holds no duplicates. -/
def sortStrings (l : List String) : List String := l.foldr insertSorted []

/-- `BEFModuleEmitter::EmitLocationInfo` (mlir_to_bef.cc:729): emit the
location-filenames section, then the location-positions section,
remembering each operation's offset within the latter. -/
def BEFModuleEmitter.EmitLocationInfo (entities : EntityTable) (idx : EntityIndex)
    (e : BefEmitter) : BefEmitter × EntityIndex :=
  let filenames_section := entities.location_filenames.foldl
    (fun sec filename => (sec.EmitBytes (strBytes filename)).EmitByte 0) BefEmitter.empty
  let e := e.EmitSectionE .kLocationFilenames filenames_section
  let (positions_section, idx) := entities.location_positions.foldl
    (fun (p : BefEmitter × EntityIndex) entry =>
      let (sec, idx) := p
      let idx := idx.AddLocationPosition entry.1 sec.size
      (((sec.EmitVbrInt entry.2.1).EmitVbrInt entry.2.2.1).EmitVbrInt entry.2.2.2, idx))
    (BefEmitter.empty, idx)
  (e.EmitSectionE .kLocationPositions positions_section, idx)

/-- `BEFModuleEmitter::EmitDebugInfo` (mlir_to_bef.cc:754). -/
def BEFModuleEmitter.EmitDebugInfo (entities : EntityTable) (idx : EntityIndex)
    (e : BefEmitter) : BefEmitter × EntityIndex :=
  let (debug_info_section, idx) := entities.debug_info.foldl
    (fun (p : BefEmitter × EntityIndex) entry =>
      let (sec, idx) := p
      let idx := idx.AddDebugInfoOffset entry.1 sec.size
      ((sec.EmitBytes (strBytes entry.2)).EmitByte 0, idx))
    (BefEmitter.empty, idx)
  (e.EmitSectionE .kDebugInfo debug_info_section, idx)

/-- `BEFModuleEmitter::EmitStrings` (mlir_to_bef.cc:771): sort the pool,
emit each string NUL-terminated, and remember the offsets. -/
def BEFModuleEmitter.EmitStrings (entities : EntityTable) (idx : EntityIndex)
    (e : BefEmitter) : BefEmitter × EntityIndex :=
  let strs_in_order := sortStrings entities.strings
  let (string_section, idx) := strs_in_order.foldl
    (fun (p : BefEmitter × EntityIndex) entry =>
      let (sec, idx) := p
      let idx := idx.AddString entry sec.size
      ((sec.EmitBytes (strBytes entry)).EmitByte 0, idx))
    (BefEmitter.empty, idx)
  (e.EmitSectionE .kStrings string_section, idx)

/-! ### The attribute emitter (spec section 4.4)

`BefAttrEmitter` lives in `lib/bef_converter/mlir_to_bef/bef_attr_emitter.cc`,
which is not under `src/`; its encoding is modelled from spec section 4.4.
Only the existence and determinism of the payload bytes matter to the
claims. -/

/-- Modelled from the spec: the little-endian eight-byte encoding used for
scalar integer and float payloads. -/
def le8 (v : Nat) : List Nat := le4 (v % 2 ^ 32) ++ le4 (v / 2 ^ 32 % 2 ^ 32)

/-- Modelled from the spec: the type tag recorded for an attribute in the
attribute-types sidecar (`BefAttrEmitter::GetBefAttributeType`); the tags
need only be deterministic per attribute kind. -/
def GetBefAttributeType : MLAttr → Nat
  | .scalar (.boolAttr _) => 1
  | .scalar (.intAttr _ _) => 2
  | .scalar (.floatAttr _ _) => 3
  | .scalar (.strAttr _) => 4
  | .scalar (.symbolRef _ _) => 5
  | .scalar (.typeAttr _) => 6
  | .scalar (.denseAttr _ _ _) => 7
  | .scalar .unitAttr => 0
  | .scalar (.unsupported _) => 8
  | .arrayAttr _ => 9

/-- Whether the attribute type tag denotes a symbol reference
(`IsSymbolRefAttribute`, used at mlir_to_bef.cc:812). -/
def IsSymbolRefAttribute (attribute_type : Nat) : Bool := attribute_type == 5

/-- Modelled from the spec: encode one scalar attribute into the attribute
section, returning the new emitter and the attribute's offset (spec
section 4.4: fixed-width scalars, length-prefixed strings, dense header
plus payload). -/
def emitScalarAttrPayload (e : BefEmitter) (a : MLScalarAttr) : BefEmitter × Nat :=
  let off := e.size
  match a with
  | .boolAttr b => (e.EmitByte (if b then 1 else 0), off)
  | .intAttr _ v => (e.EmitBytes (le8 ((v % (2 ^ 64 : Int)).toNat)), off)
  | .floatAttr _ bits => (e.EmitBytes (le8 bits), off)
  | .strAttr s => ((e.EmitVbrInt (strBytes s).length).EmitBytes (strBytes s), off)
  | .symbolRef root _ =>
    (((e.EmitVbrInt (strBytes root).length).EmitBytes (strBytes root)).EmitByte 0, off)
  | .typeAttr ty =>
    ((e.EmitVbrInt (strBytes ty.print).length).EmitBytes (strBytes ty.print), off)
  | .denseAttr _ shape data =>
    let e := (shape.foldl BefEmitter.EmitVbrInt (e.EmitVbrInt shape.length)).EmitVbrInt data.length
    (e.EmitBytes data, off)
  | .unitAttr => (e, off)
  | .unsupported _ => (e, off)

/-- Modelled from the spec: `BefAttrEmitter::EmitAttribute` — scalars are
emitted directly; aggregates emit their leaves first and then a count plus
offsets table, whose position is the aggregate's offset (spec section 4.4). -/
def BefAttrEmitter.EmitAttribute (e : BefEmitter) (attr : MLAttr) : BefEmitter × Nat :=
  match attr with
  | .scalar a => emitScalarAttrPayload e a
  | .arrayAttr elems =>
    let (e, offsets) := elems.foldl
      (fun (p : BefEmitter × List Nat) a =>
        let (e', off) := emitScalarAttrPayload p.1 a
        (e', p.2 ++ [off])) (e, [])
    let table_offset := e.size
    let e := offsets.foldl BefEmitter.EmitVbrInt (e.EmitVbrInt elems.length)
    (e, table_offset)

/-- Modelled from the spec: `BefAttrEmitter::EmitSymbolRefAttribute` — a
symbol reference to a compilation unit is serialized as the unit's bytes
plus the symbol name (spec section 4.4); the serialized module itself is
out of scope, so the name encoding stands for the payload. -/
def BefAttrEmitter.EmitSymbolRefAttribute (e : BefEmitter) (attr : MLAttr) :
    BefEmitter × Nat :=
  match attr with
  | .scalar (.symbolRef root nested) =>
    let off := e.size
    let name := printSymbolRef (.symbolRef root nested)
    (((e.EmitVbrInt (strBytes name).length).EmitBytes (strBytes name)).EmitByte 0, off)
  | a => BefAttrEmitter.EmitAttribute e a

/-- `BEFModuleEmitter::EmitAttributes` (mlir_to_bef.cc:795): emit the
pooled attributes in insertion order, recording their offsets, and fill
the attribute-types sidecar when optional sections are enabled. -/
def BEFModuleEmitter.EmitAttributes (entities : EntityTable) (idx : EntityIndex)
    (e : BefEmitter) (attribute_types : Option BefEmitter) :
    BefEmitter × EntityIndex × Option BefEmitter :=
  let step := fun (p : BefEmitter × EntityIndex × BefEmitter) (attr : MLAttr) =>
    let (attributes_section, idx, attribute_type_emitter) := p
    let attribute_type := GetBefAttributeType attr
    let (attributes_section, offset) :=
      if IsSymbolRefAttribute attribute_type then
        BefAttrEmitter.EmitSymbolRefAttribute attributes_section attr
      else
        BefAttrEmitter.EmitAttribute attributes_section attr
    let idx := idx.AddAttributeOffset attr offset
    let attribute_type_emitter :=
      if attribute_types.isSome then
        (attribute_type_emitter.EmitVbrInt offset).EmitVbrInt attribute_type
      else attribute_type_emitter
    (attributes_section, idx, attribute_type_emitter)
  let (attributes_section, idx, attribute_type_emitter) :=
    entities.attributes.foldl step (BefEmitter.empty, idx, BefEmitter.empty)
  let attribute_types := attribute_types.map
    (fun at_ => (at_.EmitVbrInt entities.attributes.length).EmitEmitter attribute_type_emitter)
  (e.EmitSectionE .kAttributes attributes_section, idx, attribute_types)

/-- `BEFModuleEmitter::EmitKernels` (mlir_to_bef.cc:832): kernel count,
then each kernel name's string offset. -/
def BEFModuleEmitter.EmitKernels (entities : EntityTable) (idx : EntityIndex)
    (e : BefEmitter) : BefEmitter :=
  let ops_section := entities.kernels.foldl
    (fun sec op => sec.EmitVbrInt (idx.GetStringOffset op))
    (BefEmitter.empty.EmitVbrInt entities.kernels.length)
  e.EmitSectionE .kKernels ops_section

/-- `BEFModuleEmitter::EmitTypes` (mlir_to_bef.cc:847): type count, then
each type name's string offset. -/
def BEFModuleEmitter.EmitTypes (entities : EntityTable) (idx : EntityIndex)
    (e : BefEmitter) : BefEmitter :=
  let types_section := entities.types.foldl
    (fun sec type => sec.EmitVbrInt (idx.GetStringOffset type.print))
    (BefEmitter.empty.EmitVbrInt entities.types.length)
  e.EmitSectionE .kTypes types_section

/-! ### The function emitter (mlir_to_bef.cc:868, spec section 4.6) -/

/-- Modelled from the spec: the stream analysis (spec section 4.5) lives in
`lib/compiler/stream_analysis.cc`, not under `src/`; its contract is that
it is a pure function of the block, yielding a root stream id and a stream
id per operation (identified here by block position). -/
structure StreamAnalysisResult where
  rootStreamId : Nat := 0
  streamIdOf : Nat → Nat := fun _ => 0

/-- Modelled from the spec: a stream analysis is any pure function of the
block. -/
def StreamAnalysis : Type := MLBlock → StreamAnalysisResult

/-- The number of operands of an operation (`Operation::getNumOperands`). -/
def MLOperation.getNumOperands (op : MLOperation) : Nat := op.head.operands.length

/-- The number of results of an operation (`Operation::getNumResults`). -/
def MLOperation.getNumResults (op : MLOperation) : Nat := op.head.resultTypes.length

/-- The block-argument value references of a block, in order. -/
def MLBlock.argRefs (b : MLBlock) : List ValueRef :=
  (List.range b.argTypes.length).map ValueRef.arg

/-- All registers of a block in allocation order: block arguments first,
then each operation's results in program order (the order
`BEFFunctionEmitter::EmitRegisterTable` assigns dense register numbers). -/
def blockRegisters (b : MLBlock) : List ValueRef :=
  b.argRefs ++
    (b.ops.enum.map (fun p =>
      (List.range p.2.head.resultTypes.length).map (ValueRef.opResult p.1))).flatten

/-- The `register_number_` map of `BEFFunctionEmitter`: each register of
the block paired with its dense allocation index. -/
def registerNumberMap (b : MLBlock) : List (ValueRef × Nat) :=
  (blockRegisters b).enum.map (fun p => (p.2, p.1))

/-- `BEFFunctionEmitter::GetRegisterNumber`; asserted to succeed in the
source. -/
def GetRegisterNumber (regmap : List (ValueRef × Nat)) (reg : ValueRef) : Nat :=
  (regmap.lookup reg).getD 0

/-- `BEFFunctionEmitter::GetPseudoResultRegisterNumber`: one past all
normal registers (`register_number_.size()`). -/
def GetPseudoResultRegisterNumber (regmap : List (ValueRef × Nat)) : Nat :=
  regmap.length

/-- The number of uses of a value (`std::distance(reg.use_begin(),
reg.use_end())`): occurrences among the operand lists of the block's
operations. Cross-region uses are rejected by pass 1, so on the inputs
that reach emission all uses lie in the defining block. -/
def MLBlock.useCount (b : MLBlock) (v : ValueRef) : Nat :=
  (b.ops.map (fun op => op.head.operands.count v)).sum

/-- The users of a value (`Value::getUsers`), as block positions, one entry
per use: MLIR's use-list order is modelled as program order. -/
def MLBlock.usersOf (b : MLBlock) (v : ValueRef) : List Nat :=
  (b.ops.enum.map (fun p => List.replicate (p.2.head.operands.count v) p.1)).flatten

/-- `BEFFunctionEmitter::EmitRegisterTable` (mlir_to_bef.cc:1015): per
register the use count (and, in the sidecar, the type index), then the
register count followed by the table. -/
def BEFFunctionEmitter.EmitRegisterTable (entities : EntityTable) (block : MLBlock)
    (e : BefEmitter) (register_types : Option BefEmitter) :
    BefEmitter × Option BefEmitter :=
  let (reg_table, reg_type_table, num_registers) := (blockRegisters block).foldl
    (fun (p : BefEmitter × BefEmitter × Nat) reg =>
      let (reg_table, reg_type_table, n) := p
      (reg_table.EmitVbrInt (block.useCount reg),
       reg_type_table.EmitVbrInt (entities.GetTypeIndex (block.typeOfValue reg)),
       n + 1))
    (BefEmitter.empty, BefEmitter.empty, 0)
  let e := (e.EmitVbrInt num_registers).EmitEmitter reg_table
  let register_types := register_types.map
    (fun rt => (rt.EmitVbrInt num_registers).EmitEmitter reg_type_table)
  (e, register_types)

/-- The `kernel_index_` map of `BEFFunctionEmitter` (mlir_to_bef.cc:927):
non-return operations, by block position, numbered densely from 1 (index 0
is the pseudo kernel). -/
def kernelIndexMap (ops : List MLOperation) : List (Nat × Nat) :=
  kernelIndexMapFrom 0 1 ops
where
  kernelIndexMapFrom (pos num : Nat) : List MLOperation → List (Nat × Nat)
    | [] => []
    | op :: rest =>
      if IsReturn op then kernelIndexMapFrom (pos + 1) num rest
      else (pos, num) :: kernelIndexMapFrom (pos + 1) (num + 1) rest

/-- The users `EmitKernelResultUsers` actually records: the given users
with the `return` operation filtered out (mlir_to_bef.cc:1054, "Ignore the
'return' op, it gets special handling"). -/
def nonReturnUsers (block : MLBlock) (users : List Nat) : List Nat :=
  users.filter (fun j => ¬ IsReturn (block.ops.getD j default))

/-- `BEFFunctionEmitter::EmitKernelResultUsers` (mlir_to_bef.cc:1048): the
non-return users' kernel indices go to the kernel body, their count to the
kernel list. -/
def BEFFunctionEmitter.EmitKernelResultUsers (block : MLBlock)
    (kernel_index : List (Nat × Nat)) (users : List Nat)
    (kernel_list kernel_body : BefEmitter) : BefEmitter × BefEmitter :=
  let us := nonReturnUsers block users
  let kernel_body := us.foldl
    (fun kb j => kb.EmitInt4 ((kernel_index.lookup j).getD 0)) kernel_body
  (kernel_list.EmitInt4 us.length, kernel_body)

/-- The operations of the block with no operands (`ready_kernels`,
mlir_to_bef.cc:1094), as block positions. -/
def readyKernels (block : MLBlock) : List Nat :=
  (block.ops.enum.filter (fun p => p.2.getNumOperands == 0)).map (fun p => p.1)

/-- `BEFFunctionEmitter::EmitArgumentsPseudoKernel` (mlir_to_bef.cc:1065):
the fixed seven-field header, then a body holding the pseudo trigger
register, the block-argument registers, and the user lists (the trigger's
users are the zero-operand `ready_kernels`). -/
def BEFFunctionEmitter.EmitArgumentsPseudoKernel (block : MLBlock)
    (regmap : List (ValueRef × Nat)) (kernel_index : List (Nat × Nat))
    (kernel_list : BefEmitter) : BefEmitter :=
  let kernel_list := kernel_list.EmitInt4 kDummyPseudoKernelCode
  let kernel_list := kernel_list.EmitInt4 kDummyPseudoKernelLocation
  let kernel_list := kernel_list.EmitInt4 0
  let kernel_list := kernel_list.EmitInt4 0
  let kernel_list := kernel_list.EmitInt4 0
  let kernel_list := kernel_list.EmitInt4 (block.getNumArguments + 1)
  let kernel_list := kernel_list.EmitInt4 0
  let kernel_body := BefEmitter.empty.EmitInt4 (GetPseudoResultRegisterNumber regmap)
  let kernel_body := block.argRefs.foldl
    (fun kb arg => kb.EmitInt4 (GetRegisterNumber regmap arg)) kernel_body
  let (kernel_list, kernel_body) := BEFFunctionEmitter.EmitKernelResultUsers block
    kernel_index (readyKernels block) kernel_list kernel_body
  let (kernel_list, kernel_body) := block.argRefs.foldl
    (fun (p : BefEmitter × BefEmitter) arg =>
      BEFFunctionEmitter.EmitKernelResultUsers block kernel_index
        (block.usersOf arg) p.1 p.2)
    (kernel_list, kernel_body)
  kernel_list.EmitEmitter kernel_body

/-- The flat byte image of the pseudo-entry kernel record, as the layout
theorem states it: the seven fixed u32 header words
`{0xABABABAB, 0xCDCDCDCD, 0, 0, 0, block_arg_count + 1, 0}`, the user
count of the trigger result followed by the user counts of the
block-argument results, then the record body — the trigger register (one
past all normal registers), the block-argument registers, and the user
kernel indices of the trigger (the non-return zero-operand ops) followed
by those of each block argument. -/
def pseudoKernelRecordBytes (block : MLBlock) : List Nat :=
  let regmap := registerNumberMap block
  let kernel_index := kernelIndexMap block.ops
  le4 kDummyPseudoKernelCode ++ le4 kDummyPseudoKernelLocation ++
  le4 0 ++ le4 0 ++ le4 0 ++ le4 (block.getNumArguments + 1) ++ le4 0 ++
  le4 (nonReturnUsers block (readyKernels block)).length ++
  (block.argRefs.map (fun a => le4 (nonReturnUsers block (block.usersOf a)).length)).flatten ++
  le4 (GetPseudoResultRegisterNumber regmap) ++
  (block.argRefs.map (fun a => le4 (GetRegisterNumber regmap a))).flatten ++
  ((nonReturnUsers block (readyKernels block)).map
    (fun j => le4 ((kernel_index.lookup j).getD 0))).flatten ++
  (block.argRefs.map (fun a =>
    ((nonReturnUsers block (block.usersOf a)).map
      (fun j => le4 ((kernel_index.lookup j).getD 0))).flatten)).flatten

/-- Whether the operation carries the non-strict marker attribute (the
`is_non_strict` scan over all attributes, mlir_to_bef.cc:972). -/
def kernelIsNonStrict (op : MLOperation) : Bool :=
  op.head.attrs.any (fun p => ClassifyAttribute p.1 == .kNonStrict)

/-- The `num_operands_before_running` value emitted for a kernel
(mlir_to_bef.cc:983): the operand count, set to 1 for a non-strict kernel
with at least one operand. -/
def numOperandsBeforeRunning (op : MLOperation) : Nat :=
  let n := op.getNumOperands
  if kernelIsNonStrict op && decide (n ≠ 0) then 1 else n

/-- The `special_attribute` word of a kernel record (mlir_to_bef.cc:1132):
the non-strict flag is OR'd in for each attribute classified as non-strict
(the `_tfrt_cost` skip never matches the non-strict name), and the
has-debug-info flag when a debug-info offset exists. -/
def kernelSpecialFlags (op : MLOperation) (has_debug_info : Bool) : Nat :=
  let s := op.head.attrs.foldl
    (fun s p =>
      if p.1 == "_tfrt_cost" then s
      else if ClassifyAttribute p.1 == .kNonStrict then
        s ||| SpecialAttribute.kNonStrict.toFlag
      else s) 0
  if has_debug_info then s ||| SpecialAttribute.kHasDebugInfo.toFlag else s

/-- The 32-bit two's-complement image of a signed value (`EmitInt4` applied
to the `ssize_t` result of `GetFunctionNamed`, which emits `0xFFFFFFFF`
for a missing function). -/
def int4OfInt (i : Int) : Nat := (i % (2 ^ 32 : Int)).toNat

/-- The attribute loop of `BEFFunctionEmitter::EmitKernel`
(mlir_to_bef.cc:1133), accumulating the input-function and input-attribute
emitters, their counts, and the attribute-names sidecar; the non-strict
flag it also accumulates is `kernelSpecialFlags` (the other branches never
touch it). -/
def emitKernelAttrs (entities : EntityTable) (idx : EntityIndex) :
    (Nat × Nat × BefEmitter × BefEmitter × Option BefEmitter) →
    List (String × MLAttr) → Nat × Nat × BefEmitter × BefEmitter × Option BefEmitter
  | st, [] => st
  | st, (attr_name, attr_value) :: rest =>
    let (num_input_functions, num_input_attributes,
         input_function_emitter, input_attribute_emitter, attribute_names) := st
    -- Skip cost attribute which is not used in runtime execution.
    if attr_name == "_tfrt_cost" then emitKernelAttrs entities idx st rest
    -- The non-strict marker only sets the special flag.
    else if ClassifyAttribute attr_name == .kNonStrict then
      emitKernelAttrs entities idx st rest
    else
      match attr_value with
      -- Emit array of function attributes (first element a flat symbol ref).
      | .arrayAttr (first :: more) =>
        if first matches .symbolRef _ [] then
          let fns := first :: more
          let num_input_functions := num_input_functions + fns.length
          let input_function_emitter := fns.foldl
            (fun ife fn =>
              ife.EmitInt4 (int4OfInt (entities.GetFunctionNamed fn.rootReference)))
            input_function_emitter
          emitKernelAttrs entities idx
            (num_input_functions, num_input_attributes,
             input_function_emitter, input_attribute_emitter, attribute_names) rest
        else
          let attribute_names := attribute_names.map
            (fun an => an.EmitVbrInt (idx.GetStringOffset attr_name))
          let input_attribute_emitter :=
            input_attribute_emitter.EmitInt4 (idx.GetAttributeOffset attr_value)
          emitKernelAttrs entities idx
            (num_input_functions, num_input_attributes + 1,
             input_function_emitter, input_attribute_emitter, attribute_names) rest
      -- A flat symbol reference is a function reference.
      | .scalar (.symbolRef root []) =>
        let input_function_emitter :=
          input_function_emitter.EmitInt4 (int4OfInt (entities.GetFunctionNamed root))
        emitKernelAttrs entities idx
          (num_input_functions + 1, num_input_attributes,
           input_function_emitter, input_attribute_emitter, attribute_names) rest
      | _ =>
        let attribute_names := attribute_names.map
          (fun an => an.EmitVbrInt (idx.GetStringOffset attr_name))
        let input_attribute_emitter :=
          input_attribute_emitter.EmitInt4 (idx.GetAttributeOffset attr_value)
        emitKernelAttrs entities idx
          (num_input_functions, num_input_attributes + 1,
           input_function_emitter, input_attribute_emitter, attribute_names) rest

/-- `BEFFunctionEmitter::EmitKernel` (mlir_to_bef.cc:1108) for the
operation at block position `j`. -/
def BEFFunctionEmitter.EmitKernel (entities : EntityTable) (idx : EntityIndex)
    (block : MLBlock) (regmap : List (ValueRef × Nat)) (kernel_index : List (Nat × Nat))
    (j : Nat) (op : MLOperation) (kernel_list : BefEmitter)
    (attribute_names : Option BefEmitter) : BefEmitter × Option BefEmitter :=
  let kernel_list := kernel_list.EmitInt4 (entities.GetKernelID op)
  let kernel_list := kernel_list.EmitInt4 (idx.GetLocationPositionOffset op)
  let kernel_body := BefEmitter.empty
  let kernel_list := kernel_list.EmitInt4 op.getNumOperands
  let kernel_body := op.head.operands.foldl
    (fun kb operand => kb.EmitInt4 (GetRegisterNumber regmap operand)) kernel_body
  let (num_input_functions, num_input_attributes,
       input_function_emitter, input_attribute_emitter, attribute_names) :=
    emitKernelAttrs entities idx (0, 0, BefEmitter.empty, BefEmitter.empty, attribute_names)
      op.head.attrs
  let kernel_list := kernel_list.EmitInt4 num_input_attributes
  let kernel_body := kernel_body.EmitEmitter input_attribute_emitter
  let num_input_functions := num_input_functions + op.regions.length
  let input_function_emitter := op.regions.foldl
    (fun ife region => ife.EmitInt4 (entities.GetFunctionID region)) input_function_emitter
  let kernel_list := kernel_list.EmitInt4 num_input_functions
  let kernel_body := kernel_body.EmitEmitter input_function_emitter
  let kernel_list := kernel_list.EmitInt4 op.getNumResults
  let result_refs := (List.range op.getNumResults).map (ValueRef.opResult j)
  let kernel_body := result_refs.foldl
    (fun kb r => kb.EmitInt4 (GetRegisterNumber regmap r)) kernel_body
  let debug_info_offset := idx.GetDebugInfoOffset op
  let kernel_list := kernel_list.EmitInt4 (kernelSpecialFlags op debug_info_offset.isSome)
  let (kernel_list, kernel_body) := result_refs.foldl
    (fun (p : BefEmitter × BefEmitter) r =>
      BEFFunctionEmitter.EmitKernelResultUsers block kernel_index (block.usersOf r) p.1 p.2)
    (kernel_list, kernel_body)
  let kernel_body := match debug_info_offset with
    | some d => kernel_body.EmitInt4 d
    | none => kernel_body
  let kernel_list := kernel_list.EmitAlignment 4
  (kernel_list.EmitEmitter kernel_body, attribute_names)

/-- The per-operation loop of `BEFFunctionEmitter::EmitFunction`
(mlir_to_bef.cc:965): return operations are remembered for the result
list; every other operation contributes its offset,
`num_operands_before_running` and stream id to the function header and its
record to the kernel list. -/
def emitFunctionOps (entities : EntityTable) (idx : EntityIndex)
    (block : MLBlock) (regmap : List (ValueRef × Nat)) (kernel_index : List (Nat × Nat))
    (sar : StreamAnalysisResult) :
    (BefEmitter × BefEmitter × Option BefEmitter × Option MLOperation) → Nat →
    List MLOperation → BefEmitter × BefEmitter × Option BefEmitter × Option MLOperation
  | st, _, [] => st
  | (e, kernel_list, attribute_names, return_op), j, op :: rest =>
    if IsReturn op then
      emitFunctionOps entities idx block regmap kernel_index sar
        (e, kernel_list, attribute_names, some op) (j + 1) rest
    else
      let e := e.EmitVbrInt kernel_list.size
      let e := e.EmitVbrInt (numOperandsBeforeRunning op)
      let e := e.EmitVbrInt (sar.streamIdOf j)
      let (kernel_list, attribute_names) := BEFFunctionEmitter.EmitKernel entities idx
        block regmap kernel_index j op kernel_list attribute_names
      emitFunctionOps entities idx block regmap kernel_index sar
        (e, kernel_list, attribute_names, return_op) (j + 1) rest

/-- `BEFFunctionEmitter::EmitFunction` (mlir_to_bef.cc:909): location
offset, register table, kernel count, pseudo-entry header entry, the
per-kernel entries, the return-operand register list, and finally the
4-byte-aligned kernel record list. -/
def BEFFunctionEmitter.EmitFunction (entities : EntityTable) (idx : EntityIndex)
    (sa : StreamAnalysis) (parent : MLOperation) (region : MLRegion) (e : BefEmitter)
    (attribute_names register_types : Option BefEmitter) :
    BefEmitter × Option BefEmitter × Option BefEmitter :=
  let block := region.blocks.headD default
  let e := e.EmitVbrInt (idx.GetLocationPositionOffset parent)
  let regmap := registerNumberMap block
  let (e, register_types) := BEFFunctionEmitter.EmitRegisterTable entities block e
    register_types
  let kernel_index := kernelIndexMap block.ops
  let num_kernels := 1 + (block.ops.filter (fun op => ¬ IsReturn op)).length
  let e := e.EmitVbrInt num_kernels
  let attribute_names := attribute_names.map (fun an => an.EmitVbrInt num_kernels)
  let sar := sa block
  let kernel_list := BefEmitter.empty
  let e := e.EmitVbrInt kernel_list.size
  let e := e.EmitVbrInt 0
  let e := e.EmitVbrInt sar.rootStreamId
  let kernel_list := BEFFunctionEmitter.EmitArgumentsPseudoKernel block regmap
    kernel_index kernel_list
  let (e, kernel_list, attribute_names, return_op) := emitFunctionOps entities idx block
    regmap kernel_index sar (e, kernel_list, attribute_names, none) 0 block.ops
  let e := match return_op with
    | some rop => rop.head.operands.foldl
        (fun (e : BefEmitter) operand => e.EmitVbrInt (GetRegisterNumber regmap operand)) e
    | none => e
  let e := e.EmitAlignment 4
  let e := e.EmitEmitter kernel_list
  (e, attribute_names, register_types)

/-- `BEFModuleEmitter::EmitFunctions` (mlir_to_bef.cc:1216): emit each
function body (recording its offset), then the function-index section
followed by the functions section. -/
def BEFModuleEmitter.EmitFunctions (sa : StreamAnalysis) (entities : EntityTable)
    (idx : EntityIndex) (e : BefEmitter)
    (attribute_names register_types : Option BefEmitter) :
    BefEmitter × Option BefEmitter × Option BefEmitter :=
  let attribute_names := attribute_names.map
    (fun an => an.EmitVbrInt entities.functions.length)
  let register_types := register_types.map
    (fun rt => rt.EmitVbrInt entities.functions.length)
  let (functions_section, idx, attribute_names, register_types) :=
    entities.functions.foldl
      (fun (p : BefEmitter × EntityIndex × Option BefEmitter × Option BefEmitter)
           (function_entry : FunctionEntry) =>
        let (functions_section, idx, attribute_names, register_types) := p
        let idx := idx.AddFunction function_entry.name functions_section.size
          function_entry.type function_entry.kind
        if ¬ function_entry.IsNative then
          let (functions_section, attribute_names, register_types) :=
            BEFFunctionEmitter.EmitFunction entities idx sa function_entry.parent
              (function_entry.region.getD default) functions_section
              attribute_names register_types
          (functions_section, idx, attribute_names, register_types)
        else (functions_section, idx, attribute_names, register_types))
      (BefEmitter.empty, idx, attribute_names, register_types)
  let function_index := idx.function_index_
  let function_index_section := function_index.foldl
    (fun sec (entry : FunctionIndexEntry) =>
      let sec := sec.EmitByte entry.kind.toByte
      let sec := sec.EmitVbrInt entry.function_offset
      let sec := sec.EmitVbrInt entry.name_offset
      let sec := entry.type.inputs.foldl
        (fun sec type => sec.EmitVbrInt (entities.GetTypeIndex type))
        (sec.EmitVbrInt entry.type.inputs.length)
      entry.type.results.foldl
        (fun sec type => sec.EmitVbrInt (entities.GetTypeIndex type))
        (sec.EmitVbrInt entry.type.results.length))
    (BefEmitter.empty.EmitVbrInt function_index.length)
  let e := e.EmitSectionE .kFunctionIndex function_index_section
  let e := e.EmitSectionE .kFunctions functions_section
  (e, attribute_names, register_types)

/-! ### The child sections in isolation

Each `Emit...` stage of the module emitter builds its payload in a child
emitter that does not depend on the outer emitter; the following
definitions name those payloads so the section-layout theorems can state
each stage as pure `EmitSection` applications. -/

/-- The location-filenames payload of `EmitLocationInfo`. -/
def locFilenamesSec (entities : EntityTable) : BefEmitter :=
  entities.location_filenames.foldl
    (fun sec filename => (sec.EmitBytes (strBytes filename)).EmitByte 0) BefEmitter.empty

/-- The location-positions payload of `EmitLocationInfo`, with the updated
index. -/
def locPositionsPair (entities : EntityTable) (idx : EntityIndex) :
    BefEmitter × EntityIndex :=
  entities.location_positions.foldl
    (fun (p : BefEmitter × EntityIndex) entry =>
      let (sec, idx) := p
      let idx := idx.AddLocationPosition entry.1 sec.size
      (((sec.EmitVbrInt entry.2.1).EmitVbrInt entry.2.2.1).EmitVbrInt entry.2.2.2, idx))
    (BefEmitter.empty, idx)

/-- The debug-info payload of `EmitDebugInfo`, with the updated index. -/
def debugInfoPair (entities : EntityTable) (idx : EntityIndex) :
    BefEmitter × EntityIndex :=
  entities.debug_info.foldl
    (fun (p : BefEmitter × EntityIndex) entry =>
      let (sec, idx) := p
      let idx := idx.AddDebugInfoOffset entry.1 sec.size
      ((sec.EmitBytes (strBytes entry.2)).EmitByte 0, idx))
    (BefEmitter.empty, idx)

/-- The string-pool payload of `EmitStrings`, with the updated index. -/
def stringsPair (entities : EntityTable) (idx : EntityIndex) :
    BefEmitter × EntityIndex :=
  (sortStrings entities.strings).foldl
    (fun (p : BefEmitter × EntityIndex) entry =>
      let (sec, idx) := p
      let idx := idx.AddString entry sec.size
      ((sec.EmitBytes (strBytes entry)).EmitByte 0, idx))
    (BefEmitter.empty, idx)

/-- The attributes payload of `EmitAttributes`, with the updated index and
the raw attribute-type pairs (`withTypes` stands for
`attribute_types.isSome`). -/
def attributesTriple (entities : EntityTable) (idx : EntityIndex) (withTypes : Bool) :
    BefEmitter × EntityIndex × BefEmitter :=
  let step := fun (p : BefEmitter × EntityIndex × BefEmitter) (attr : MLAttr) =>
    let (attributes_section, idx, attribute_type_emitter) := p
    let attribute_type := GetBefAttributeType attr
    let (attributes_section, offset) :=
      if IsSymbolRefAttribute attribute_type then
        BefAttrEmitter.EmitSymbolRefAttribute attributes_section attr
      else
        BefAttrEmitter.EmitAttribute attributes_section attr
    let idx := idx.AddAttributeOffset attr offset
    let attribute_type_emitter :=
      if withTypes then
        (attribute_type_emitter.EmitVbrInt offset).EmitVbrInt attribute_type
      else attribute_type_emitter
    (attributes_section, idx, attribute_type_emitter)
  entities.attributes.foldl step (BefEmitter.empty, idx, BefEmitter.empty)

/-- The kernels payload of `EmitKernels`. -/
def kernelsSec (entities : EntityTable) (idx : EntityIndex) : BefEmitter :=
  entities.kernels.foldl
    (fun sec op => sec.EmitVbrInt (idx.GetStringOffset op))
    (BefEmitter.empty.EmitVbrInt entities.kernels.length)

/-- The types payload of `EmitTypes`. -/
def typesSec (entities : EntityTable) (idx : EntityIndex) : BefEmitter :=
  entities.types.foldl
    (fun sec type => sec.EmitVbrInt (idx.GetStringOffset type.print))
    (BefEmitter.empty.EmitVbrInt entities.types.length)

/-- The function-index payload, functions payload, and updated optional
emitters of `EmitFunctions`. -/
def functionsTuple (sa : StreamAnalysis) (entities : EntityTable) (idx : EntityIndex)
    (attribute_names register_types : Option BefEmitter) :
    BefEmitter × BefEmitter × Option BefEmitter × Option BefEmitter :=
  let attribute_names := attribute_names.map
    (fun an => an.EmitVbrInt entities.functions.length)
  let register_types := register_types.map
    (fun rt => rt.EmitVbrInt entities.functions.length)
  let (functions_section, idx, attribute_names, register_types) :=
    entities.functions.foldl
      (fun (p : BefEmitter × EntityIndex × Option BefEmitter × Option BefEmitter)
           (function_entry : FunctionEntry) =>
        let (functions_section, idx, attribute_names, register_types) := p
        let idx := idx.AddFunction function_entry.name functions_section.size
          function_entry.type function_entry.kind
        if ¬ function_entry.IsNative then
          let (functions_section, attribute_names, register_types) :=
            BEFFunctionEmitter.EmitFunction entities idx sa function_entry.parent
              (function_entry.region.getD default) functions_section
              attribute_names register_types
          (functions_section, idx, attribute_names, register_types)
        else (functions_section, idx, attribute_names, register_types))
      (BefEmitter.empty, idx, attribute_names, register_types)
  let function_index := idx.function_index_
  let function_index_section := function_index.foldl
    (fun sec (entry : FunctionIndexEntry) =>
      let sec := sec.EmitByte entry.kind.toByte
      let sec := sec.EmitVbrInt entry.function_offset
      let sec := sec.EmitVbrInt entry.name_offset
      let sec := entry.type.inputs.foldl
        (fun sec type => sec.EmitVbrInt (entities.GetTypeIndex type))
        (sec.EmitVbrInt entry.type.inputs.length)
      entry.type.results.foldl
        (fun sec type => sec.EmitVbrInt (entities.GetTypeIndex type))
        (sec.EmitVbrInt entry.type.results.length))
    (BefEmitter.empty.EmitVbrInt function_index.length)
  (function_index_section, functions_section, attribute_names, register_types)

/-- The section specifications (id, payload bytes, alignment) that a
successful conversion emits, in emission order; the section-layout theorem
shows the converted file is exactly the magic bytes followed by these
frames. -/
def convertSpecs (sa : StreamAnalysis) (m : MLModule) (disable_optional_sections : Bool) :
    List (BEFSectionID × List Nat × Nat) :=
  let entities := (EntityTable.Collect m (!disable_optional_sections)).table
  let i1 := (locPositionsPair entities {}).2
  let i2 := (debugInfoPair entities i1).2
  let i3 := (stringsPair entities i2).2
  let tr := attributesTriple entities i3 (!disable_optional_sections)
  let i4 := tr.2.1
  let ft := functionsTuple sa entities i4
    (if disable_optional_sections then none else some BefEmitter.empty)
    (if disable_optional_sections then none else some BefEmitter.empty)
  let base : List (BEFSectionID × List Nat × Nat) := [
    (.kLocationFilenames, (locFilenamesSec entities).result,
      (locFilenamesSec entities).required_alignment),
    (.kLocationPositions, (locPositionsPair entities {}).1.result,
      (locPositionsPair entities {}).1.required_alignment),
    (.kDebugInfo, (debugInfoPair entities i1).1.result,
      (debugInfoPair entities i1).1.required_alignment),
    (.kStrings, (stringsPair entities i2).1.result,
      (stringsPair entities i2).1.required_alignment),
    (.kAttributes, tr.1.result, tr.1.required_alignment),
    (.kKernels, (kernelsSec entities i4).result,
      (kernelsSec entities i4).required_alignment),
    (.kTypes, (typesSec entities i4).result,
      (typesSec entities i4).required_alignment),
    (.kFunctionIndex, ft.1.result, ft.1.required_alignment),
    (.kFunctions, ft.2.1.result, ft.2.1.required_alignment)]
  if disable_optional_sections then base
  else
    let at_ := (BefEmitter.empty.EmitVbrInt entities.attributes.length).EmitEmitter tr.2.2
    base ++ [
      (.kAttributeTypes, at_.result, at_.required_alignment),
      (.kAttributeNames, (ft.2.2.1.getD BefEmitter.empty).result,
        (ft.2.2.1.getD BefEmitter.empty).required_alignment),
      (.kRegisterTypes, (ft.2.2.2.getD BefEmitter.empty).result,
        (ft.2.2.2.getD BefEmitter.empty).required_alignment)]

/-- `ConvertMLIRToBEF` (mlir_to_bef.cc:1273): pass 1, then the magic bytes
and every section in the fixed order; on a collection failure the result
is the empty buffer. -/
def ConvertMLIRToBEF (sa : StreamAnalysis) (module : MLModule)
    (disable_optional_sections : Bool) : List Nat :=
  let c := EntityTable.Collect module (!disable_optional_sections)
  match c.result with
  | .Failure => []
  | .Success =>
    let entities := c.table
    let e := BefEmitter.empty.EmitBytes [kBEFMagic1, kBEFMagic2, kBEFVersion0]
    let (e, idx) := BEFModuleEmitter.EmitLocationInfo entities {} e
    let (e, idx) := BEFModuleEmitter.EmitDebugInfo entities idx e
    let (e, idx) := BEFModuleEmitter.EmitStrings entities idx e
    let (e, idx, attribute_types) := BEFModuleEmitter.EmitAttributes entities idx e
      (if disable_optional_sections then none else some BefEmitter.empty)
    let e := BEFModuleEmitter.EmitKernels entities idx e
    let e := BEFModuleEmitter.EmitTypes entities idx e
    let (e, attribute_names, register_types) := BEFModuleEmitter.EmitFunctions sa entities
      idx e (if disable_optional_sections then none else some BefEmitter.empty)
      (if disable_optional_sections then none else some BefEmitter.empty)
    if disable_optional_sections then e.result
    else
      let e := e.EmitSectionE .kAttributeTypes (attribute_types.getD BefEmitter.empty)
      let e := e.EmitSectionE .kAttributeNames (attribute_names.getD BefEmitter.empty)
      let e := e.EmitSectionE .kRegisterTypes (register_types.getD BefEmitter.empty)
      e.result

/-! ## The core-runtime kernels (`lib/core_runtime/kernels.cc`)

The asynchronous kernels are modelled in their resolved view: an async value
appears as its terminal state (a concrete payload or an error); callback
chains (`AndThen`, `RunWhenReady`) become sequential control flow, and the
work-queue re-enqueueing of the while loop becomes fuel-indexed recursion.
Cancellation is signalled through mutable context state that an external
actor may set between iterations; the model reads it as a function of the
iteration-boundary index. -/

/-- The dtype kinds of a dense host tensor
(`DType::Kind`; `String` is the dtype of a string host tensor). -/
inductive DTypeKind where
  | BOOL
  | I1
  | I8
  | I16
  | I32
  | I64
  | UI8
  | UI16
  | UI32
  | UI64
  | F16
  | BF16
  | F32
  | F64
  | String
deriving DecidableEq, Repr

/-- A dense host tensor in its resolved state: its dtype and its elements
read as integers (`DHTArrayView<T>`; boolean elements are 0 or 1). -/
structure DenseHostTensor where
  dtype : DTypeKind
  elements : List Int
deriving DecidableEq, Repr

/-- A host tensor value: a dense host tensor, a string host tensor, or any
other tensor kind (carrying `tensor_type().name()`). -/
inductive Tensor where
  | dense (dht : DenseHostTensor)
  | stringHost (strings : List String)
  | other (type_name : String)
deriving DecidableEq, Repr

/-- `GetDHTPredicateValue` (kernels.cc:425): `BOOL` reads element zero as a
boolean; each integer dtype (the `DTYPE_INT` expansion of `dtype.def`,
which is not under `src/` — the integer kinds are listed here) reads
element zero and compares it with zero; every other dtype falls to the
`default: llvm_unreachable("dtype not supported")` case, which produces no
boolean and is modelled as `none`. -/
def GetDHTPredicateValue (dht : DenseHostTensor) : Option Bool :=
  match dht.dtype with
  | .BOOL => some (dht.elements.getD 0 0 != 0)
  | .I1 => some (dht.elements.getD 0 0 != 0)
  | .I8 => some (dht.elements.getD 0 0 != 0)
  | .I16 => some (dht.elements.getD 0 0 != 0)
  | .I32 => some (dht.elements.getD 0 0 != 0)
  | .I64 => some (dht.elements.getD 0 0 != 0)
  | .UI8 => some (dht.elements.getD 0 0 != 0)
  | .UI16 => some (dht.elements.getD 0 0 != 0)
  | .UI32 => some (dht.elements.getD 0 0 != 0)
  | .UI64 => some (dht.elements.getD 0 0 != 0)
  | _ => none

/-- Whether a dtype is one the predicate switch handles (`BOOL` or an
integer kind). -/
def DTypeKind.predicateSupported (k : DTypeKind) : Bool :=
  match k with
  | .BOOL | .I1 | .I8 | .I16 | .I32 | .I64 | .UI8 | .UI16 | .UI32 | .UI64 => true
  | _ => false

/-- `GetTensorPredicateValue` (kernels.cc:468): a dense host tensor yields
its scalar boolean (through `GetDHTPredicateValue`, whose unreachable
default propagates as `none`); a string host tensor is false exactly when
it is empty or its first element is the empty string; any other tensor
kind yields the error `tensor predicate does not support type <T>`. -/
def GetTensorPredicateValue (tensor : Tensor) : Option (Except String Bool) :=
  match tensor with
  | .dense dht => (GetDHTPredicateValue dht).map Except.ok
  | .stringHost strings =>
    -- Only empty string is false.
    some (.ok (!strings.isEmpty && !(strings.headD "").isEmpty))
  | .other type_name =>
    some (.error ("tensor predicate does not support type " ++ type_name))

/-- Tensor metadata: dtype and shape (`TensorMetadata`). -/
structure TensorMetadata where
  dtype : DTypeKind
  shape : List Int
deriving DecidableEq, Repr

/-- The number of elements of a shape (`TensorShape::GetNumElements`): the
product of the dimension sizes. -/
def TensorMetadata.numElements (m : TensorMetadata) : Nat :=
  (m.shape.map Int.toNat).prod

instance {ε α : Type} [DecidableEq ε] [DecidableEq α] : DecidableEq (Except ε α) := fun a b =>
  match a, b with
  | .ok x, .ok y =>
    match decEq x y with
    | isTrue h => isTrue (by rw [h])
    | isFalse h => isFalse (by intro hh; injection hh; contradiction)
  | .error x, .error y =>
    match decEq x y with
    | isTrue h => isTrue (by rw [h])
    | isFalse h => isFalse (by intro hh; injection hh; contradiction)
  | .ok _, .error _ => isFalse (fun h => Except.noConfusion h)
  | .error _, .ok _ => isFalse (fun h => Except.noConfusion h)

/-- A tensor handle in its resolved view: the device the handle lives on
(`IsDeviceType(CpuDevice::kDeviceType)` is the only device query the
claims need), its metadata, and its async tensor in terminal state (a
concrete tensor or an error). -/
structure TensorHandle where
  deviceIsCpu : Bool
  metadata : TensorMetadata
  tensor : Except String Tensor
deriving DecidableEq, Repr

/-- An async value in terminal state: a chain, a tensor handle, or an
error value. -/
inductive AVal where
  | chain
  | tensorHandle (th : TensorHandle)
  | error (msg : String)
deriving DecidableEq, Repr

/-- A BEF function as the while/cond kernels invoke it (`Function::Execute`
with every value resolved): argument values to result values. -/
def HostFunction : Type := List AVal → List AVal

/-- The execution context as the modelled kernels read it: the cancel
async value the context exposes at each iteration boundary (it is mutable
state an external actor may set mid-loop, hence a function of the boundary
index), and whether host allocation succeeds. -/
structure ExecutionContext where
  cancelAt : Nat → Option AVal := fun _ => none
  allocSucceeds : Bool := true

/-- `ReturnAfterHandlingError` (kernels.cc:446) in the resolved view: the
error forwarded to every result, if any — the async value's own error, or
the error of a tensor handle whose tensor channel is in error. -/
def ReturnAfterHandlingError (condition : AVal) : Option String :=
  match condition with
  | .error msg => some msg
  | .tensorHandle th =>
    match th.tensor with
    | .error msg => some msg
    | .ok _ => none
  | .chain => none

/-- Modelled from the spec: tensor conversion (`ConvertTensor` to the host
device's dense tensor type) belongs to the tensor libraries, which spec
section 1 places out of scope; on the host tensors the claims concern it
is the identity. -/
def ConvertTensor (tensor : Tensor) : Except String Tensor := .ok tensor

/-- How a run of the while loop ends. -/
inductive WhileOutcome where
  | cancelled (v : AVal)
  | errored (msg : String)
  | finished (final_args : List AVal)
  | outOfFuel (args : List AVal)
  | unreachableUB
deriving DecidableEq, Repr

/-- The observable outcome of a while-loop run: how the result async
values are resolved and how often the condition and body functions ran. -/
structure WhileResult where
  outcome : WhileOutcome
  condCalls : Nat
  bodyCalls : Nat
deriving DecidableEq, Repr

/-- The values forwarded to the `n` result async values for an outcome:
under cancellation every result is forwarded to the cancel value, on an
error every result is set to that error, and on normal termination result
`i` is forwarded to final argument `i`. -/
def WhileResult.resultValues (r : WhileResult) (n : Nat) : Option (List AVal) :=
  match r.outcome with
  | .cancelled v => some (List.replicate n v)
  | .errored msg => some (List.replicate n (.error msg))
  | .finished final_args => some final_args
  | .outOfFuel _ => none
  | .unreachableUB => none

/-- The end of one while-loop iteration: either the loop is done with a
result, or the body ran and the next iteration is pending on the work
queue with the body's results as the new arguments. -/
inductive WhileStep where
  | done (r : WhileResult)
  | enqueued (passed_args : List AVal)
deriving DecidableEq, Repr

/-- One iteration of the while loop — `CoreRtWhileLoopIteration` together
with `CoreRtWhileLoopIterationImpl` (kernels.cc:682 and kernels.cc:636) up
to the `EnqueueWork` re-enqueue, in the resolved view, at boundary `iter`:

1. if the execution context exposes a cancel async value, forward every
   result to it and stop — the condition function is not invoked;
2. otherwise invoke `cond_fn`; its second output is the condition tensor
   handle. When both outputs resolve, forward any error of that handle to
   every result and stop;
3. a condition handle on a non-CPU device produces the error
   `non-cpu device for condition tensor handle` on every result;
4. otherwise convert the condition tensor to a host tensor and evaluate
   the predicate: an error propagates to every result; `false` forwards
   result `i` to argument `i`; `true` runs `body_fn` and re-enqueues the
   next iteration on the work queue. -/
def CoreRtWhileLoopStep (ectx : ExecutionContext)
    (cond_fn body_fn : HostFunction) (arg_refs : List AVal) (iter : Nat) : WhileStep :=
  match ectx.cancelAt iter with
  | some cancel_av =>
    .done { outcome := .cancelled cancel_av, condCalls := 0, bodyCalls := 0 }
  | none =>
    let condition := cond_fn arg_refs
    let condition_tensorhandle := condition.getD 1 (.error "missing condition value")
    match ReturnAfterHandlingError condition_tensorhandle with
    | some msg => .done { outcome := .errored msg, condCalls := 1, bodyCalls := 0 }
    | none =>
      match condition_tensorhandle with
      | .tensorHandle th =>
        if !th.deviceIsCpu then
          .done { outcome := .errored "non-cpu device for condition tensor handle",
                  condCalls := 1, bodyCalls := 0 }
        else
          match th.tensor with
          | .error msg => .done { outcome := .errored msg, condCalls := 1, bodyCalls := 0 }
          | .ok tensor =>
            match ConvertTensor tensor with
            | .error msg =>
              .done { outcome := .errored msg, condCalls := 1, bodyCalls := 0 }
            | .ok condition_host_tensor =>
              match GetTensorPredicateValue condition_host_tensor with
              | none => .done { outcome := .unreachableUB, condCalls := 1, bodyCalls := 0 }
              | some (.error msg) =>
                .done { outcome := .errored msg, condCalls := 1, bodyCalls := 0 }
              | some (.ok false) =>
                .done { outcome := .finished arg_refs, condCalls := 1, bodyCalls := 0 }
              | some (.ok true) =>
                .enqueued (body_fn arg_refs)
      | _ => .done { outcome := .unreachableUB, condCalls := 1, bodyCalls := 0 }

/-- The while-loop iteration chain: run one step; when the step re-enqueues
the next iteration, recurse with one unit of fuel fewer, counting the
condition and body invocations of the finished step. `fuel` bounds the
number of re-enqueued iterations; `outOfFuel` marks the budget running out
and corresponds to no behaviour of the source (the source recursion is
unbounded through the work queue). -/
def CoreRtWhileLoopIteration (ectx : ExecutionContext)
    (cond_fn body_fn : HostFunction) :
    Nat → List AVal → Nat → WhileResult
  | 0, arg_refs, iter =>
    match CoreRtWhileLoopStep ectx cond_fn body_fn arg_refs iter with
    | .done r => r
    | .enqueued passed_args =>
      { outcome := .outOfFuel passed_args, condCalls := 1, bodyCalls := 1 }
  | fuel + 1, arg_refs, iter =>
    match CoreRtWhileLoopStep ectx cond_fn body_fn arg_refs iter with
    | .done r => r
    | .enqueued passed_args =>
      let r := CoreRtWhileLoopIteration ectx cond_fn body_fn fuel passed_args (iter + 1)
      { outcome := r.outcome, condCalls := r.condCalls + 1, bodyCalls := r.bodyCalls + 1 }

/-- `CoreRtWhileLoop` (kernels.cc:784): retain the arguments, allocate the
indirect results, and run the first iteration. -/
def CoreRtWhileLoop (ectx : ExecutionContext) (cond_fn body_fn : HostFunction)
    (args : List AVal) (fuel : Nat) : WhileResult :=
  CoreRtWhileLoopIteration ectx cond_fn body_fn fuel args 0

/-- `ConstStringTensor` (kernels.cc:158): build the `String`-dtype metadata
from the shape attribute, allocate the string host tensor, then fill it: a
single-element aggregate is replicated into every tensor element ("All
elements are the same, and only one element is saved in BEF"); otherwise
aggregate element `i` is stored at tensor element `i` (the source asserts
the sizes match). The constructed tensor is set concrete and packaged into
a tensor handle on the host device. The aggregate is modelled as the list
of its string elements (the kernel reads each as a `StringAttr`). -/
def ConstStringTensor (ectx : ExecutionContext) (shape : List Int)
    (value : List String) : Except String TensorHandle :=
  let metadata : TensorMetadata := { dtype := .String, shape := shape }
  if !ectx.allocSucceeds then
    .error "failed to allocate string host tensor"
  else
    let n := metadata.numElements
    let strings :=
      if value.length == 1 then
        List.replicate n (value.getD 0 "")
      else
        (List.range n).map (fun i => value.getD i "")
    .ok { deviceIsCpu := true, metadata := metadata,
          tensor := .ok (.stringHost strings) }

/-! ### Concrete inputs used by the witnesses and counterexamples -/

/-- A stream analysis instance: everything on stream 0 (any pure analysis
satisfies the spec contract; the claims do not depend on the ids). -/
def trivialStreamAnalysis : StreamAnalysis := fun _ => {}

/-- A bare `tfrt.return` operation. -/
def returnOp : MLOperation := .mk { name := "tfrt.return" } []

/-- A block holding only a `tfrt.return` (the body of a function that
returns nothing). -/
def returnOnlyBlock : MLBlock := .mk [] [returnOp]

/-- An async function `main` whose body is just `tfrt.return`. -/
def mainFunc : MLOperation :=
  .mk { name := "func",
        funcInfo := some { fname := "main", inputs := [], results := [] },
        symName := some "main" }
    [.mk [returnOnlyBlock]]

/-- A module holding one async function `main` that just returns
(scenario A of the spec). -/
def exampleModule : MLModule := ⟨[mainFunc]⟩

/-- A kernel operation carrying a symbol-reference attribute to the
undefined function `@undefined_fn`. -/
def danglingRefOp : MLOperation :=
  .mk { name := "test.use",
        attrs := [("fn", .scalar (.symbolRef "undefined_fn" []))] } []

/-- A module whose one function contains a symbol reference to a function
that is nowhere defined (scenario C of the spec). -/
def missingFnModule : MLModule :=
  ⟨[.mk { name := "func",
          funcInfo := some { fname := "main", inputs := [], results := [] },
          symName := some "main" }
      [.mk [.mk [] [danglingRefOp, returnOp]]]]⟩

/-! ## Theorems -/

/-! ### List helper lemmas -/

theorem lookup_append_of_some {α β : Type} [BEq α] (l1 l2 : List (α × β)) (k : α) (v : β)
    (h : l1.lookup k = some v) : (l1 ++ l2).lookup k = some v := by
  induction l1 with
  | nil => simp [List.lookup] at h
  | cons p rest ih =>
    simp only [List.cons_append, List.lookup] at h ⊢
    cases hpk : k == p.1 with
    | true => simpa [hpk] using h
    | false =>
      simp only [hpk] at h ⊢
      exact ih h

theorem lookup_append_of_none {α β : Type} [BEq α] (l1 l2 : List (α × β)) (k : α)
    (h : l1.lookup k = none) : (l1 ++ l2).lookup k = l2.lookup k := by
  induction l1 with
  | nil => simp
  | cons p rest ih =>
    simp only [List.cons_append, List.lookup] at h ⊢
    cases hpk : k == p.1 with
    | true => simp [hpk] at h
    | false =>
      simp only [hpk] at h ⊢
      exact ih h

theorem map_getD_range {α : Type} (d : α) (l : List α) :
    (List.range l.length).map (fun i => l.getD i d) = l := by
  induction l with
  | nil => simp
  | cons a tl ih =>
    rw [List.length_cons, List.range_succ_eq_map, List.map_cons, List.getD_cons_zero,
      List.map_map]
    have hcomp : ((fun i => (a :: tl).getD i d) ∘ Nat.succ) = (fun i => tl.getD i d) := by
      funext i
      simp [List.getD_cons_succ]
    rw [hcomp, ih]

/-! ### C3: `num_operands_before_running` and the non-strict special flag -/

theorem specialFlagsFoldAux (l : List (String × MLAttr)) (s : Nat) (hs : s = 0 ∨ s = 1) :
    l.foldl
      (fun s p =>
        if p.1 == "_tfrt_cost" then s
        else if ClassifyAttribute p.1 == .kNonStrict then
          s ||| SpecialAttribute.kNonStrict.toFlag
        else s) s
    = if s = 1 ∨ l.any (fun p => ClassifyAttribute p.1 == .kNonStrict) then 1 else 0 := by
  induction l generalizing s with
  | nil =>
    rcases hs with h | h <;> simp [h]
  | cons p rest ih =>
    simp only [List.foldl_cons, List.any_cons]
    by_cases hcost : (p.1 == "_tfrt_cost") = true
    · have hp : p.1 = "_tfrt_cost" := eq_of_beq hcost
      have hcls : (ClassifyAttribute p.1 == SpecialAttribute.kNonStrict) = false := by
        rw [hp]; decide
      rw [if_pos hcost, ih s hs]
      simp only [hcls, Bool.false_or]
    · rw [if_neg hcost]
      by_cases hcls : (ClassifyAttribute p.1 == SpecialAttribute.kNonStrict) = true
      · have h1 : (s ||| SpecialAttribute.kNonStrict.toFlag) = 1 := by
          rcases hs with h | h <;> subst h <;> decide
        rw [if_pos hcls, h1, ih 1 (Or.inr rfl)]
        simp only [hcls, Bool.true_or]
        simp
      · have hcls' : (ClassifyAttribute p.1 == SpecialAttribute.kNonStrict) = false := by
          simpa using hcls
        rw [if_neg hcls, ih s hs]
        simp only [hcls', Bool.false_or]

theorem kernelSpecialFlags_eq (op : MLOperation) (has_debug_info : Bool) :
    kernelSpecialFlags op has_debug_info =
      (if kernelIsNonStrict op then 1 else 0) + (if has_debug_info then 2 else 0) := by
  unfold kernelSpecialFlags kernelIsNonStrict
  rw [specialFlagsFoldAux op.head.attrs 0 (Or.inl rfl)]
  by_cases h : (op.head.attrs.any fun p => ClassifyAttribute p.1 == SpecialAttribute.kNonStrict) = true <;>
    cases has_debug_info <;> simp [h] <;> decide

/-- C3: for every non-return kernel op, the emitted
`num_operands_before_running` equals the operand count, except for an op
carrying the non-strict marker, where it equals `min(1, operand_count)`;
and the kernel record's `special_flags` has bit `0x1` set if and only if
the op carries the non-strict marker. (`numOperandsBeforeRunning` and
`kernelSpecialFlags` are exactly the values `EmitFunction` and
`EmitKernel` emit.) -/
theorem nonstrict_operand_and_flag_rule (op : MLOperation) (has_debug_info : Bool) :
    (numOperandsBeforeRunning op =
      if kernelIsNonStrict op then min 1 op.getNumOperands else op.getNumOperands)
    ∧ ((kernelSpecialFlags op has_debug_info).testBit 0 ↔ kernelIsNonStrict op = true) := by
  constructor
  · unfold numOperandsBeforeRunning
    by_cases h : kernelIsNonStrict op = true
    · rw [if_pos h]
      by_cases hn : op.getNumOperands = 0
      · simp [h, hn]
      · have hb : (kernelIsNonStrict op && decide (op.getNumOperands ≠ 0)) = true := by
          simp [h, hn]
        rw [if_pos hb]
        omega
    · simp [h]
  · rw [kernelSpecialFlags_eq]
    by_cases h : kernelIsNonStrict op = true <;> cases has_debug_info <;>
      simp [h, Nat.testBit]

/-! ### C4: the pseudo-entry kernel record -/

theorem le4_length (v : Nat) : (le4 v).length = 4 := rfl

theorem le4_mod (v : Nat) : le4 (v % 2 ^ 32) = le4 v := by
  simp only [le4, List.cons.injEq, and_true]
  refine ⟨?_, ?_, ?_, ?_⟩ <;> omega

theorem emitInt4_props (e : BefEmitter) (v : Nat) (h : e.size % 4 = 0) :
    ((e.EmitInt4 v).result = e.result ++ le4 v)
    ∧ ((e.EmitInt4 v).size = e.size + 4)
    ∧ ((e.EmitInt4 v).required_alignment = max e.required_alignment 4) := by
  have hpad : padCount e.size 4 = 0 := by
    unfold padCount
    omega
  unfold BefEmitter.EmitInt4 BefEmitter.EmitAlignment BefEmitter.EmitBytes
  rw [BefEmitter.size] at hpad
  simp [hpad, le4_mod, BefEmitter.size, le4]
  omega

theorem foldl_emitInt4 {α : Type} (g : α → Nat) (l : List α) (e : BefEmitter)
    (h : e.size % 4 = 0) :
    ((l.foldl (fun b x => b.EmitInt4 (g x)) e).result
        = e.result ++ (l.map (fun x => le4 (g x))).flatten)
    ∧ ((l.foldl (fun b x => b.EmitInt4 (g x)) e).size = e.size + 4 * l.length)
    ∧ (e.required_alignment = 4 →
        (l.foldl (fun b x => b.EmitInt4 (g x)) e).required_alignment = 4) := by
  induction l generalizing e with
  | nil => simp
  | cons x xs ih =>
    obtain ⟨hr, hs, hq⟩ := emitInt4_props e (g x) h
    obtain ⟨ihr, ihs, ihq⟩ := ih (e.EmitInt4 (g x)) (by omega)
    refine ⟨?_, ?_, ?_⟩
    · rw [List.foldl_cons, ihr, hr]
      simp
    · rw [List.foldl_cons, ihs, hs]
      simp
      omega
    · intro hreq
      rw [List.foldl_cons]
      exact ihq (by rw [hq, hreq]; rfl)

theorem emitKernelResultUsers_props (block : MLBlock) (kernel_index : List (Nat × Nat))
    (users : List Nat) (kl kb : BefEmitter) (hkl : kl.size % 4 = 0) (hkb : kb.size % 4 = 0) :
    ((BEFFunctionEmitter.EmitKernelResultUsers block kernel_index users kl kb).1.result
        = kl.result ++ le4 (nonReturnUsers block users).length)
    ∧ ((BEFFunctionEmitter.EmitKernelResultUsers block kernel_index users kl kb).1.size
        = kl.size + 4)
    ∧ ((BEFFunctionEmitter.EmitKernelResultUsers block kernel_index users kl kb).2.result
        = kb.result ++ ((nonReturnUsers block users).map
            (fun j => le4 ((kernel_index.lookup j).getD 0))).flatten)
    ∧ ((BEFFunctionEmitter.EmitKernelResultUsers block kernel_index users kl kb).2.size
        = kb.size + 4 * (nonReturnUsers block users).length)
    ∧ (kb.required_alignment = 4 →
        (BEFFunctionEmitter.EmitKernelResultUsers block kernel_index users kl kb).2.required_alignment
          = 4) := by
  unfold BEFFunctionEmitter.EmitKernelResultUsers
  obtain ⟨hr, hs, _⟩ := emitInt4_props kl (nonReturnUsers block users).length hkl
  obtain ⟨fr, fs, fq⟩ := foldl_emitInt4 (fun j => (kernel_index.lookup j).getD 0)
    (nonReturnUsers block users) kb hkb
  exact ⟨hr, hs, fr, fs, fq⟩

theorem argUsersFold_props (block : MLBlock) (kernel_index : List (Nat × Nat))
    (args : List ValueRef) (kl kb : BefEmitter)
    (hkl : kl.size % 4 = 0) (hkb : kb.size % 4 = 0) :
    ((args.foldl (fun p a => BEFFunctionEmitter.EmitKernelResultUsers block kernel_index
        (block.usersOf a) p.1 p.2) (kl, kb)).1.result
      = kl.result ++ (args.map
          (fun a => le4 (nonReturnUsers block (block.usersOf a)).length)).flatten)
    ∧ ((args.foldl (fun p a => BEFFunctionEmitter.EmitKernelResultUsers block kernel_index
        (block.usersOf a) p.1 p.2) (kl, kb)).1.size % 4 = 0)
    ∧ ((args.foldl (fun p a => BEFFunctionEmitter.EmitKernelResultUsers block kernel_index
        (block.usersOf a) p.1 p.2) (kl, kb)).2.result
      = kb.result ++ (args.map (fun a =>
          ((nonReturnUsers block (block.usersOf a)).map
            (fun j => le4 ((kernel_index.lookup j).getD 0))).flatten)).flatten)
    ∧ ((args.foldl (fun p a => BEFFunctionEmitter.EmitKernelResultUsers block kernel_index
        (block.usersOf a) p.1 p.2) (kl, kb)).2.size % 4 = 0)
    ∧ (kb.required_alignment = 4 →
        (args.foldl (fun p a => BEFFunctionEmitter.EmitKernelResultUsers block kernel_index
          (block.usersOf a) p.1 p.2) (kl, kb)).2.required_alignment = 4) := by
  induction args generalizing kl kb with
  | nil => exact ⟨by simp, hkl, by simp, hkb, fun hq => hq⟩
  | cons a rest ih =>
    obtain ⟨h1, h2, h3, h4, h5⟩ := emitKernelResultUsers_props block kernel_index
      (block.usersOf a) kl kb hkl hkb
    obtain ⟨i1, i2, i3, i4, i5⟩ := ih
      (BEFFunctionEmitter.EmitKernelResultUsers block kernel_index (block.usersOf a) kl kb).1
      (BEFFunctionEmitter.EmitKernelResultUsers block kernel_index (block.usersOf a) kl kb).2
      (by omega) (by omega)
    refine ⟨?_, ?_, ?_, ?_, ?_⟩
    · rw [List.foldl_cons, i1, h1]
      simp
    · rw [List.foldl_cons]
      exact i2
    · rw [List.foldl_cons, i3, h3]
      simp
    · rw [List.foldl_cons]
      exact i4
    · intro hq
      rw [List.foldl_cons]
      exact i5 (h5 hq)

theorem emitEmitter_aligned (e child : BefEmitter) (h : e.size % 4 = 0)
    (hreq : child.required_alignment = 4) :
    (e.EmitEmitter child).result = e.result ++ child.result := by
  have hpad : padCount e.size 4 = 0 := by
    unfold padCount
    omega
  unfold BefEmitter.EmitEmitter BefEmitter.EmitAlignment
  simp [hreq, hpad]

theorem mem_of_lookup {α β : Type} [BEq α] [LawfulBEq α] (l : List (α × β)) (k : α) (v : β)
    (h : l.lookup k = some v) : (k, v) ∈ l := by
  induction l with
  | nil => simp [List.lookup] at h
  | cons p rest ih =>
    simp only [List.lookup] at h
    cases hpk : k == p.1 with
    | true =>
      rw [hpk] at h
      simp only [Option.some.injEq] at h
      have hk : k = p.1 := eq_of_beq hpk
      have hkv : (k, v) = p := by
        rw [hk, ← h]
      rw [hkv]
      exact List.mem_cons_self p rest
    | false =>
      rw [hpk] at h
      exact List.mem_cons_of_mem p (ih h)

theorem enumFrom_le_getD {α : Type} (d : α) (l : List α) :
    ∀ (n : Nat) (p : Nat × α), p ∈ l.enumFrom n →
      n ≤ p.1 ∧ p.1 < n + l.length ∧ l.getD (p.1 - n) d = p.2 := by
  induction l with
  | nil => intro n p hp; simp [List.enumFrom] at hp
  | cons a tl ih =>
    intro n p hp
    rw [List.enumFrom] at hp
    rcases List.mem_cons.mp hp with hp | hp
    · subst hp
      simp
    · obtain ⟨h1, h2, h3⟩ := ih (n + 1) p hp
      refine ⟨by omega, by simp; omega, ?_⟩
      have : p.1 - n = (p.1 - (n + 1)) + 1 := by omega
      rw [this, List.getD_cons_succ]
      exact h3

theorem enum_getD {α : Type} (d : α) (l : List α) (p : Nat × α) (hp : p ∈ l.enum) :
    p.1 < l.length ∧ l.getD p.1 d = p.2 := by
  obtain ⟨h1, h2, h3⟩ := enumFrom_le_getD d l 0 p (by simpa [List.enum] using hp)
  refine ⟨by omega, ?_⟩
  simpa using h3

theorem registerNumberMap_lt (block : MLBlock) (v : ValueRef) (r : Nat)
    (h : (registerNumberMap block).lookup v = some r) :
    r < GetPseudoResultRegisterNumber (registerNumberMap block) := by
  have hmem := mem_of_lookup _ _ _ h
  rw [registerNumberMap] at hmem
  simp only [List.mem_map] at hmem
  obtain ⟨q, hq, hqe⟩ := hmem
  have h1 := (enum_getD default (blockRegisters block) q hq).1
  have h2 : q.1 = r := by
    simpa using congrArg Prod.snd hqe
  rw [GetPseudoResultRegisterNumber, registerNumberMap, List.length_map, List.enum_length]
  rw [← h2]
  exact h1

theorem pseudo_headers (block : MLBlock) (kl : BefEmitter) (h : kl.size % 4 = 0) :
    (((((((kl.EmitInt4 kDummyPseudoKernelCode).EmitInt4
        kDummyPseudoKernelLocation).EmitInt4 0).EmitInt4 0).EmitInt4 0).EmitInt4
        (block.getNumArguments + 1)).EmitInt4 0).result
      = kl.result ++ le4 kDummyPseudoKernelCode ++ le4 kDummyPseudoKernelLocation
        ++ le4 0 ++ le4 0 ++ le4 0 ++ le4 (block.getNumArguments + 1) ++ le4 0
    ∧ (((((((kl.EmitInt4 kDummyPseudoKernelCode).EmitInt4
        kDummyPseudoKernelLocation).EmitInt4 0).EmitInt4 0).EmitInt4 0).EmitInt4
        (block.getNumArguments + 1)).EmitInt4 0).size % 4 = 0 := by
  obtain ⟨r1, s1, _⟩ := emitInt4_props kl kDummyPseudoKernelCode h
  obtain ⟨r2, s2, _⟩ := emitInt4_props (kl.EmitInt4 kDummyPseudoKernelCode)
    kDummyPseudoKernelLocation (by omega)
  obtain ⟨r3, s3, _⟩ := emitInt4_props ((kl.EmitInt4 kDummyPseudoKernelCode).EmitInt4
    kDummyPseudoKernelLocation) 0 (by omega)
  obtain ⟨r4, s4, _⟩ := emitInt4_props (((kl.EmitInt4 kDummyPseudoKernelCode).EmitInt4
    kDummyPseudoKernelLocation).EmitInt4 0) 0 (by omega)
  obtain ⟨r5, s5, _⟩ := emitInt4_props ((((kl.EmitInt4 kDummyPseudoKernelCode).EmitInt4
    kDummyPseudoKernelLocation).EmitInt4 0).EmitInt4 0) 0 (by omega)
  obtain ⟨r6, s6, _⟩ := emitInt4_props (((((kl.EmitInt4 kDummyPseudoKernelCode).EmitInt4
    kDummyPseudoKernelLocation).EmitInt4 0).EmitInt4 0).EmitInt4 0)
    (block.getNumArguments + 1) (by omega)
  obtain ⟨r7, s7, _⟩ := emitInt4_props ((((((kl.EmitInt4 kDummyPseudoKernelCode).EmitInt4
    kDummyPseudoKernelLocation).EmitInt4 0).EmitInt4 0).EmitInt4 0).EmitInt4
    (block.getNumArguments + 1)) 0 (by omega)
  constructor
  · rw [r7, r6, r5, r4, r3, r2, r1]
  · omega

theorem pseudoKernel_bytes (block : MLBlock) (kl : BefEmitter) (h : kl.size % 4 = 0) :
    (BEFFunctionEmitter.EmitArgumentsPseudoKernel block (registerNumberMap block)
        (kernelIndexMap block.ops) kl).result
      = kl.result ++ pseudoKernelRecordBytes block := by
  obtain ⟨H7r, H7s⟩ := pseudo_headers block kl h
  have hes : BefEmitter.empty.size = 0 := rfl
  have hea : BefEmitter.empty.required_alignment = 1 := rfl
  obtain ⟨b0r, b0s, b0q⟩ := emitInt4_props BefEmitter.empty
    (GetPseudoResultRegisterNumber (registerNumberMap block)) (by decide)
  obtain ⟨b1r, b1s, b1q⟩ := foldl_emitInt4
    (fun arg => GetRegisterNumber (registerNumberMap block) arg) block.argRefs
    (BefEmitter.empty.EmitInt4 (GetPseudoResultRegisterNumber (registerNumberMap block)))
    (by omega)
  obtain ⟨P1, P2, P3, P4, P5⟩ := emitKernelResultUsers_props block
    (kernelIndexMap block.ops) (readyKernels block)
    ((((((((kl.EmitInt4 kDummyPseudoKernelCode).EmitInt4
      kDummyPseudoKernelLocation).EmitInt4 0).EmitInt4 0).EmitInt4 0).EmitInt4
      (block.getNumArguments + 1)).EmitInt4 0))
    (block.argRefs.foldl
      (fun kb arg => kb.EmitInt4 (GetRegisterNumber (registerNumberMap block) arg))
      (BefEmitter.empty.EmitInt4 (GetPseudoResultRegisterNumber (registerNumberMap block))))
    H7s (by omega)
  obtain ⟨F1, F2, F3, F4, F5⟩ := argUsersFold_props block (kernelIndexMap block.ops)
    block.argRefs
    (BEFFunctionEmitter.EmitKernelResultUsers block (kernelIndexMap block.ops)
      (readyKernels block)
      ((((((((kl.EmitInt4 kDummyPseudoKernelCode).EmitInt4
        kDummyPseudoKernelLocation).EmitInt4 0).EmitInt4 0).EmitInt4 0).EmitInt4
        (block.getNumArguments + 1)).EmitInt4 0))
      (block.argRefs.foldl
        (fun kb arg => kb.EmitInt4 (GetRegisterNumber (registerNumberMap block) arg))
        (BefEmitter.empty.EmitInt4
          (GetPseudoResultRegisterNumber (registerNumberMap block))))).1
    (BEFFunctionEmitter.EmitKernelResultUsers block (kernelIndexMap block.ops)
      (readyKernels block)
      ((((((((kl.EmitInt4 kDummyPseudoKernelCode).EmitInt4
        kDummyPseudoKernelLocation).EmitInt4 0).EmitInt4 0).EmitInt4 0).EmitInt4
        (block.getNumArguments + 1)).EmitInt4 0))
      (block.argRefs.foldl
        (fun kb arg => kb.EmitInt4 (GetRegisterNumber (registerNumberMap block) arg))
        (BefEmitter.empty.EmitInt4
          (GetPseudoResultRegisterNumber (registerNumberMap block))))).2
    (by omega) (by omega)
  have hreq4 : (BEFFunctionEmitter.EmitKernelResultUsers block (kernelIndexMap block.ops)
      (readyKernels block)
      ((((((((kl.EmitInt4 kDummyPseudoKernelCode).EmitInt4
        kDummyPseudoKernelLocation).EmitInt4 0).EmitInt4 0).EmitInt4 0).EmitInt4
        (block.getNumArguments + 1)).EmitInt4 0))
      (block.argRefs.foldl
        (fun kb arg => kb.EmitInt4 (GetRegisterNumber (registerNumberMap block) arg))
        (BefEmitter.empty.EmitInt4
          (GetPseudoResultRegisterNumber (registerNumberMap block))))).2.required_alignment
      = 4 := by
    apply P5
    apply b1q
    rw [b0q]
    rfl
  simp only [BEFFunctionEmitter.EmitArgumentsPseudoKernel, pseudoKernelRecordBytes]
  rw [emitEmitter_aligned _ _ F2 (F5 hreq4)]
  rw [F1, F3, P1, P3, H7r, b1r, b0r]
  simp only [BefEmitter.empty, List.nil_append, List.append_assoc]

/-- C4 counterexample: the claim says the trigger register's users are
exactly the ops of the block with zero operands, but in a block whose only
operation is a zero-operand `tfrt.return`, `EmitKernelResultUsers` filters
the return out and records no user at all, while the block has one
zero-operand op. -/
theorem pseudoKernel_users_counterexample :
    ¬ ((nonReturnUsers returnOnlyBlock (readyKernels returnOnlyBlock)).length
        = (returnOnlyBlock.ops.filter (fun op => op.getNumOperands == 0)).length) := by
  decide

/-- C4 (amended): in every emitted function body the kernel at index 0 is
the pseudo-entry record whose seven u32 header words are
`{0xABABABAB, 0xCDCDCDCD, 0, 0, 0, block_arg_count + 1, 0}` (the full
record layout is `pseudoKernelRecordBytes`); its first result is the
synthetic trigger register, numbered one past all normal registers (every
assigned register number is smaller); and the users recorded for the
trigger register are exactly the non-return operations of the block with
zero operands. -/
theorem pseudoKernel_record (block : MLBlock) (kl : BefEmitter) (h : kl.size % 4 = 0) :
    ((BEFFunctionEmitter.EmitArgumentsPseudoKernel block (registerNumberMap block)
        (kernelIndexMap block.ops) kl).result = kl.result ++ pseudoKernelRecordBytes block)
    ∧ (GetPseudoResultRegisterNumber (registerNumberMap block)
        = (blockRegisters block).length)
    ∧ (∀ (v : ValueRef) (r : Nat), (registerNumberMap block).lookup v = some r →
        r < GetPseudoResultRegisterNumber (registerNumberMap block))
    ∧ (nonReturnUsers block (readyKernels block)
        = (block.ops.enum.filter
            (fun p => !(IsReturn p.2) && p.2.getNumOperands == 0)).map
          (fun p => p.1)) := by
  refine ⟨pseudoKernel_bytes block kl h, ?_, registerNumberMap_lt block, ?_⟩
  · rw [GetPseudoResultRegisterNumber, registerNumberMap, List.length_map,
      List.enum_length]
  · unfold nonReturnUsers readyKernels
    rw [List.filter_map, List.filter_filter]
    congr 1
    apply List.filter_congr
    intro p hp
    have hgd := (enum_getD default block.ops p hp).2
    have hgd2 : block.ops[p.1]?.getD default = p.2 := by
      simpa [List.getD] using hgd
    simp [Function.comp, hgd2, Bool.and_comm]

/-- Witness for the C4 amended theorem at a concrete block and the empty
(4-byte aligned) emitter. -/
theorem pseudoKernel_record_witness :
    (BefEmitter.empty.size % 4 = 0)
    ∧ ((BEFFunctionEmitter.EmitArgumentsPseudoKernel returnOnlyBlock
        (registerNumberMap returnOnlyBlock) (kernelIndexMap returnOnlyBlock.ops)
        BefEmitter.empty).result
      = BefEmitter.empty.result ++ pseudoKernelRecordBytes returnOnlyBlock) :=
  ⟨by decide, (pseudoKernel_record returnOnlyBlock BefEmitter.empty (by decide)).1⟩

/-! ### C5: type interning in the entity table -/

theorem addString_type_ids (t : EntityTable) (s : String) :
    (t.AddString s).type_ids = t.type_ids := by
  rw [EntityTable.AddString]; split <;> rfl

theorem addType_of_present (st : EntityTable) (t : MLType) (i : Nat)
    (h : st.type_ids.lookup t = some i) : st.AddType t = st := by
  rw [EntityTable.AddType, if_pos (by rw [h]; rfl)]

theorem addType_of_fresh_type_ids (st : EntityTable) (t : MLType)
    (h : st.type_ids.lookup t = none) :
    (st.AddType t).type_ids = st.type_ids ++ [(t, st.types.length)] := by
  rw [EntityTable.AddType, if_neg (by rw [h]; simp)]
  exact addString_type_ids _ _

theorem addType_fresh_lookup (st : EntityTable) (t : MLType)
    (h : st.type_ids.lookup t = none) :
    (st.AddType t).type_ids.lookup t = some st.types.length := by
  rw [addType_of_fresh_type_ids st t h, lookup_append_of_none _ _ _ h]
  simp [List.lookup]

/-- C5: adding the same type twice leaves the table unchanged the second
time (the second insertion is a no-op, so the index assigned at first
insertion stays); a type already present keeps its index; a fresh type
gets index `types.size()`; and a fresh type's textual name enters the
string pool exactly once. -/
theorem addType_interning (st : EntityTable) (t : MLType) :
    ((st.AddType t).AddType t = st.AddType t)
    ∧ (∀ i, st.type_ids.lookup t = some i → (st.AddType t).type_ids.lookup t = some i)
    ∧ (st.type_ids.lookup t = none →
        (st.AddType t).type_ids.lookup t = some st.types.length)
    ∧ (st.type_ids.lookup t = none → st.strings.contains t.print = false →
        (st.AddType t).strings.count t.print = 1) := by
  refine ⟨?_, ?_, ?_, ?_⟩
  · cases hl : st.type_ids.lookup t with
    | some i =>
      simp only [addType_of_present st t i hl]
    | none =>
      exact addType_of_present _ t st.types.length (addType_fresh_lookup st t hl)
  · intro i hi
    simp only [addType_of_present st t i hi]
    exact hi
  · exact addType_fresh_lookup st t
  · intro hnone hfresh
    have hmem : t.print ∉ st.strings := by simpa using hfresh
    rw [EntityTable.AddType, if_neg (by rw [hnone]; simp)]
    rw [EntityTable.AddString]
    simp only [hfresh, Bool.false_eq_true, if_neg, not_false_iff]
    show (st.strings ++ [t.print]).count t.print = 1
    rw [List.count_append, List.count_eq_zero.mpr hmem]
    simp

/-- Witness for the C5 theorem at a concrete fresh type and empty table. -/
theorem addType_interning_witness :
    (({} : EntityTable).type_ids.lookup { print := "i32", isInteger := true } = none)
    ∧ ((({} : EntityTable).AddType { print := "i32", isInteger := true }).AddType
          { print := "i32", isInteger := true }
        = ({} : EntityTable).AddType { print := "i32", isInteger := true }) :=
  ⟨by decide, (addType_interning {} { print := "i32", isInteger := true }).1⟩

/-! ### C1: determinism and the sorted string pool -/

theorem mem_insertSorted (s b : String) (l : List String) :
    b ∈ insertSorted s l ↔ b = s ∨ b ∈ l := by
  induction l with
  | nil => simp [insertSorted]
  | cons x xs ih =>
    rw [insertSorted]
    by_cases h : s ≤ x
    · simp [h]
    · simp only [h, if_neg, not_false_iff, List.mem_cons, ih]
      tauto

theorem sorted_insertSorted (s : String) (l : List String)
    (h : l.Sorted (· ≤ ·)) : (insertSorted s l).Sorted (· ≤ ·) := by
  induction l with
  | nil => simp [insertSorted]
  | cons x xs ih =>
    rw [List.sorted_cons] at h
    rw [insertSorted]
    by_cases hle : s ≤ x
    · rw [if_pos hle, List.sorted_cons]
      refine ⟨?_, List.sorted_cons.mpr h⟩
      intro b hb
      rcases List.mem_cons.mp hb with hb | hb
      · exact hb ▸ hle
      · exact le_trans hle (h.1 b hb)
    · rw [if_neg hle, List.sorted_cons]
      refine ⟨?_, ih h.2⟩
      intro b hb
      rcases (mem_insertSorted s b xs).mp hb with hb | hb
      · exact hb ▸ le_of_not_le hle
      · exact h.1 b hb

theorem sorted_sortStrings (l : List String) : (sortStrings l).Sorted (· ≤ ·) := by
  induction l with
  | nil => simp [sortStrings]
  | cons x xs ih => exact sorted_insertSorted x (sortStrings xs) ih

/-- C1: compiling a fixed IR module twice yields byte-for-byte identical
BEF output (the whole pipeline, pass 1 through pass 3, is a pure function
of the module, the optional-sections flag and the — per the spec contract
pure — stream analysis), and the string pool `EmitStrings` emits is
sorted. The entity walk order is the fixed post-order walk `walkModule`,
a function of the module alone. -/
theorem compile_deterministic_and_sorted :
    (∀ (sa : StreamAnalysis) (m : MLModule) (disable_optional_sections : Bool),
      ConvertMLIRToBEF sa m disable_optional_sections =
        ConvertMLIRToBEF sa m disable_optional_sections)
    ∧ (∀ entities : EntityTable, (sortStrings entities.strings).Sorted (· ≤ ·)) :=
  ⟨fun _ _ _ => rfl, fun entities => sorted_sortStrings entities.strings⟩

/-! ### C6: undefined function references -/

theorem resolveFnAttrs_fails (acc : CollectResult) (l : List (MLScalarAttr × MLLoc))
    (h : ∃ p ∈ l, acc.table.GetFunctionNamed p.1.rootReference = -1) :
    (resolveFnAttrs acc l).result = .Failure
    ∧ ∃ s : MLScalarAttr,
        ("function " ++ printSymbolRef s ++ " not defined") ∈ (resolveFnAttrs acc l).diags := by
  induction l with
  | nil => obtain ⟨p, hp, _⟩ := h; cases hp
  | cons hd tl ih =>
    obtain ⟨sym, lc⟩ := hd
    by_cases hc : acc.table.GetFunctionNamed sym.rootReference = -1
    · simp only [resolveFnAttrs]
      rw [if_pos hc]
      refine ⟨rfl, sym, ?_⟩
      simp
    · simp only [resolveFnAttrs]
      rw [if_neg hc]
      apply ih
      obtain ⟨p, hp, hmiss⟩ := h
      rcases List.mem_cons.mp hp with heq | htl
      · rw [heq] at hmiss
        exact absurd hmiss hc
      · exact ⟨p, htl, hmiss⟩

/-- C6 counterexample: for the module with a dangling `@undefined_fn`
reference, compilation does fail and the converter does return the empty
buffer, but the diagnostic is `function @undefined_fn not defined` — the
symbol name sits between the words, so no emitted error contains the
claimed contiguous text `function not defined`. -/
theorem missing_function_message_counterexample :
    (EntityTable.Collect missingFnModule true).result = .Failure
    ∧ ("function @undefined_fn not defined")
        ∈ (EntityTable.Collect missingFnModule true).diags
    ∧ ConvertMLIRToBEF trivialStreamAnalysis missingFnModule false = []
    ∧ ¬ (∃ msg ∈ (EntityTable.Collect missingFnModule true).diags,
          List.IsInfix ("function not defined".data) msg.data) := by
  decide

/-- C6 (amended): if by the end of the collection walk some collected
function-reference attribute (a symbol reference not targeting the
compiled-module subtree) names a function absent from the function table,
then `Collect` reports failure, its diagnostics contain a message of the
form `function <symbol> not defined`, and `ConvertMLIRToBEF` returns the
empty byte buffer. -/
theorem missing_function_rule (sa : StreamAnalysis) (m : MLModule)
    (disable_optional_sections : Bool) (sym : MLScalarAttr) (lc : MLLoc)
    (hres : ((walkModule m).foldl
        (collectOp m (!disable_optional_sections)) {}).result = .Success)
    (hmem : (sym, lc) ∈ ((walkModule m).foldl
        (collectOp m (!disable_optional_sections)) {}).fn_attrs)
    (hmiss : ((walkModule m).foldl
        (collectOp m (!disable_optional_sections)) {}).table.GetFunctionNamed
        sym.rootReference = -1) :
    (EntityTable.Collect m (!disable_optional_sections)).result = .Failure
    ∧ (∃ s : MLScalarAttr,
        ("function " ++ printSymbolRef s ++ " not defined")
          ∈ (EntityTable.Collect m (!disable_optional_sections)).diags)
    ∧ ConvertMLIRToBEF sa m disable_optional_sections = [] := by
  have hcol : EntityTable.Collect m (!disable_optional_sections)
      = resolveFnAttrs
          ((walkModule m).foldl (collectOp m (!disable_optional_sections)) {})
          ((walkModule m).foldl (collectOp m (!disable_optional_sections)) {}).fn_attrs := by
    simp only [EntityTable.Collect]
    rw [if_pos hres]
  obtain ⟨hfail, hmsg⟩ := resolveFnAttrs_fails
    ((walkModule m).foldl (collectOp m (!disable_optional_sections)) {})
    ((walkModule m).foldl (collectOp m (!disable_optional_sections)) {}).fn_attrs
    ⟨(sym, lc), hmem, hmiss⟩
  refine ⟨hcol ▸ hfail, hcol ▸ hmsg, ?_⟩
  simp only [ConvertMLIRToBEF]
  rw [hcol, hfail]

/-- Witness for the C6 amended theorem at the dangling-reference module. -/
theorem missing_function_rule_witness :
    (((walkModule missingFnModule).foldl
        (collectOp missingFnModule (!false)) {}).result = .Success)
    ∧ ((EntityTable.Collect missingFnModule (!false)).result = .Failure
        ∧ (∃ s : MLScalarAttr,
            ("function " ++ printSymbolRef s ++ " not defined")
              ∈ (EntityTable.Collect missingFnModule (!false)).diags)
        ∧ ConvertMLIRToBEF trivialStreamAnalysis missingFnModule false = []) :=
  ⟨by decide,
   missing_function_rule trivialStreamAnalysis missingFnModule false
     (.symbolRef "undefined_fn" []) danglingRefOp.head.loc
     (by decide) (by decide) (by decide)⟩

/-! ### C2: the section order of the emitted file -/

theorem parseVbrAux_pre (f : Nat) : ∀ (m acc : Nat) (l : List Nat), m ≤ f →
    parseVbrAux acc (vbrPreF f m ++ l)
      = parseVbrAux (acc * 128 ^ (vbrPreF f m).length + m) l := by
  induction f with
  | zero =>
    intro m acc l hm
    have h0 : m = 0 := Nat.le_zero.mp hm
    subst h0
    simp [vbrPreF]
  | succ f ih =>
    intro m acc l hm
    by_cases h0 : m = 0
    · subst h0
      simp [vbrPreF]
    · rw [vbrPreF, if_neg h0, List.append_assoc,
        ih (m / 128) acc _ (by omega), List.singleton_append, parseVbrAux,
        if_neg (by omega)]
      have harith : (acc * 128 ^ (vbrPreF f (m / 128)).length + m / 128) * 128
          + (m % 128 + 128 - 128)
          = acc * 128 ^ (vbrPreF f (m / 128)).length.succ + m := by
        rw [pow_succ, ← Nat.mul_assoc, Nat.add_mul]
        omega
      rw [harith]
      have hlen : (vbrPreF f (m / 128) ++ [m % 128 + 128]).length
          = (vbrPreF f (m / 128)).length.succ := by simp
      rw [hlen]

theorem parseVbr_roundtrip (n : Nat) (l : List Nat) :
    parseVbrAux 0 (vbrBytes n ++ l) = some (n, l) := by
  rw [vbrBytes, List.append_assoc, vbrPre,
    parseVbrAux_pre (n / 128) (n / 128) 0 _ le_rfl, List.singleton_append,
    parseVbrAux, if_pos (by omega)]
  have : (0 * 128 ^ (vbrPreF (n / 128) (n / 128)).length + n / 128) * 128 + n % 128
      = n := by
    rw [Nat.zero_mul, Nat.zero_add]
    omega
  rw [this]

theorem parseStep_even (fuel pos idb : Nat) (d rest : List Nat) :
    parseSectionsF (fuel + 1) pos (idb :: (vbrBytes (2 * d.length) ++ (d ++ rest)))
      = match parseSectionsF fuel
            (pos + 1 + (vbrBytes (2 * d.length)).length + d.length) rest with
        | none => none
        | some ids => some (idb :: ids) := by
  rw [parseSectionsF.eq_def]
  simp only []
  rw [parseVbr_roundtrip]
  simp only [List.length_append, Nat.add_sub_cancel]
  rw [if_neg (by omega)]
  have h2 : 2 * d.length / 2 = d.length := by omega
  rw [h2]
  rw [if_neg (by simp [List.length_append])]
  have hdrop : (d ++ rest).drop d.length = rest := List.drop_left d rest
  rw [hdrop]

theorem parseStep_odd (fuel pos idb : Nat) (d rest : List Nat) (align : Nat)
    (P : Nat) (hP : P = padCount (pos + 1 + (vbrBytes (2 * d.length + 1)).length + 1) align) :
    parseSectionsF (fuel + 1) pos
        (idb :: (vbrBytes (2 * d.length + 1)
          ++ (align :: (List.replicate P 0 ++ (d ++ rest)))))
      = match parseSectionsF fuel
            (pos + 1 + (vbrBytes (2 * d.length + 1)).length + 1 + P + d.length) rest with
        | none => none
        | some ids => some (idb :: ids) := by
  rw [parseSectionsF.eq_def]
  simp only []
  rw [parseVbr_roundtrip]
  simp only [List.length_append, List.length_cons, List.length_replicate,
    Nat.add_sub_cancel]
  rw [if_pos (by omega)]
  rw [← hP]
  have h2 : (2 * d.length + 1) / 2 = d.length := by omega
  rw [h2]
  rw [if_neg (by simp [List.length_append])]
  have hdrop : (List.replicate P (0 : Nat) ++ (d ++ rest)).drop (P + d.length) = rest := by
    rw [← List.append_assoc]
    have hl : P + d.length = (List.replicate P (0 : Nat) ++ d).length := by simp
    rw [hl, List.drop_left]
  rw [hdrop]

theorem parseSectionsF_frame (fuel pos : Nat) (id : BEFSectionID) (data : List Nat)
    (align : Nat) (rest : List Nat) :
    parseSectionsF (fuel + 1) pos (sectionFrame pos id data align ++ rest)
      = match parseSectionsF fuel (pos + (sectionFrame pos id data align).length) rest with
        | none => none
        | some ids => some (id.toByte :: ids) := by
  by_cases hc : align > 1 ∧ (pos + 1 + GetSizeOfVbrInt (2 * data.length)) % align ≠ 0
  · have hframe : sectionFrame pos id data align
        = id.toByte :: (vbrBytes (2 * data.length + 1)
            ++ align ::
              (List.replicate
                (padCount (pos + 1 + (vbrBytes (2 * data.length + 1)).length + 1) align) 0
                ++ data)) := by
      simp only [sectionFrame]
      rw [if_pos hc]
    rw [hframe]
    simp only [List.cons_append, List.append_assoc]
    rw [parseStep_odd fuel pos id.toByte data rest align _ rfl]
    have hlen : pos + (id.toByte :: (vbrBytes (2 * data.length + 1)
            ++ align ::
              (List.replicate
                (padCount (pos + 1 + (vbrBytes (2 * data.length + 1)).length + 1) align) 0
                ++ data))).length
        = pos + 1 + (vbrBytes (2 * data.length + 1)).length + 1
            + padCount (pos + 1 + (vbrBytes (2 * data.length + 1)).length + 1) align
            + data.length := by
      simp [List.length_append]
      omega
    rw [hlen]
  · have hframe : sectionFrame pos id data align
        = id.toByte :: (vbrBytes (2 * data.length) ++ data) := by
      simp only [sectionFrame]
      rw [if_neg hc]
    rw [hframe]
    simp only [List.cons_append, List.append_assoc]
    rw [parseStep_even fuel pos id.toByte data rest]
    have hlen : pos + (id.toByte :: (vbrBytes (2 * data.length) ++ data)).length
        = pos + 1 + (vbrBytes (2 * data.length)).length + data.length := by
      simp [List.length_append]
      omega
    rw [hlen]

theorem emitSection_result (e : BefEmitter) (id : BEFSectionID) (data : List Nat)
    (align : Nat) :
    (e.EmitSection id data align).result
      = e.result ++ sectionFrame e.result.length id data align := by
  simp only [BefEmitter.EmitSection, sectionFrame, BefEmitter.EmitByte,
    BefEmitter.EmitVbrInt, BefEmitter.EmitBytes, BefEmitter.EmitAlignment,
    BefEmitter.size, List.length_append, List.length_cons, List.length_nil]
  split_ifs with h1
  · simp [List.append_assoc, List.length_append]
  · simp [List.append_assoc]

theorem framesConcat_ge (pos : Nat) (l : List (BEFSectionID × List Nat × Nat)) :
    l.length ≤ (framesConcat pos l).length := by
  induction l generalizing pos with
  | nil => simp [framesConcat]
  | cons s restl ih =>
    have hf : 1 ≤ (sectionFrame pos s.1 s.2.1 s.2.2).length := by
      simp only [sectionFrame]
      split_ifs <;> simp
    have := ih (pos + (sectionFrame pos s.1 s.2.1 s.2.2).length)
    simp only [framesConcat, List.length_append, List.length_cons]
    omega

theorem parse_framesConcat (l : List (BEFSectionID × List Nat × Nat)) :
    ∀ (pos fuel : Nat), l.length ≤ fuel →
    parseSectionsF fuel pos (framesConcat pos l)
      = some (l.map (fun s => s.1.toByte)) := by
  induction l with
  | nil =>
    intro pos fuel _
    simp [framesConcat, parseSectionsF]
  | cons s restl ih =>
    intro pos fuel hf
    match fuel, hf with
    | fuel + 1, hf =>
      rw [framesConcat, parseSectionsF_frame]
      rw [ih (pos + (sectionFrame pos s.1 s.2.1 s.2.2).length) fuel (by simpa using hf)]
      simp

theorem emitSections_result (l : List (BEFSectionID × List Nat × Nat)) :
    ∀ e : BefEmitter,
    (emitSections e l).result = e.result ++ framesConcat e.result.length l := by
  induction l with
  | nil => intro e; simp [emitSections, framesConcat]
  | cons s restl ih =>
    intro e
    simp only [emitSections, List.foldl_cons] at ih ⊢
    rw [ih (e.EmitSection s.1 s.2.1 s.2.2), emitSection_result, framesConcat,
      List.append_assoc, List.length_append]

theorem emitLocationInfo_eq (entities : EntityTable) (idx : EntityIndex) (e : BefEmitter) :
    BEFModuleEmitter.EmitLocationInfo entities idx e
      = ((e.EmitSectionE .kLocationFilenames (locFilenamesSec entities)).EmitSectionE
            .kLocationPositions (locPositionsPair entities idx).1,
         (locPositionsPair entities idx).2) := rfl

theorem emitDebugInfo_eq (entities : EntityTable) (idx : EntityIndex) (e : BefEmitter) :
    BEFModuleEmitter.EmitDebugInfo entities idx e
      = (e.EmitSectionE .kDebugInfo (debugInfoPair entities idx).1,
         (debugInfoPair entities idx).2) := rfl

theorem emitStrings_eq (entities : EntityTable) (idx : EntityIndex) (e : BefEmitter) :
    BEFModuleEmitter.EmitStrings entities idx e
      = (e.EmitSectionE .kStrings (stringsPair entities idx).1,
         (stringsPair entities idx).2) := rfl

theorem emitAttributes_eq (entities : EntityTable) (idx : EntityIndex) (e : BefEmitter)
    (attribute_types : Option BefEmitter) :
    BEFModuleEmitter.EmitAttributes entities idx e attribute_types
      = (e.EmitSectionE .kAttributes
            (attributesTriple entities idx attribute_types.isSome).1,
         (attributesTriple entities idx attribute_types.isSome).2.1,
         attribute_types.map
           (fun at_ => (at_.EmitVbrInt entities.attributes.length).EmitEmitter
             (attributesTriple entities idx attribute_types.isSome).2.2)) := rfl

theorem emitKernels_eq (entities : EntityTable) (idx : EntityIndex) (e : BefEmitter) :
    BEFModuleEmitter.EmitKernels entities idx e
      = e.EmitSectionE .kKernels (kernelsSec entities idx) := rfl

theorem emitTypes_eq (entities : EntityTable) (idx : EntityIndex) (e : BefEmitter) :
    BEFModuleEmitter.EmitTypes entities idx e
      = e.EmitSectionE .kTypes (typesSec entities idx) := rfl

theorem emitFunctions_eq (sa : StreamAnalysis) (entities : EntityTable)
    (idx : EntityIndex) (e : BefEmitter)
    (attribute_names register_types : Option BefEmitter) :
    BEFModuleEmitter.EmitFunctions sa entities idx e attribute_names register_types
      = ((e.EmitSectionE .kFunctionIndex
            (functionsTuple sa entities idx attribute_names register_types).1).EmitSectionE
            .kFunctions
            (functionsTuple sa entities idx attribute_names register_types).2.1,
         (functionsTuple sa entities idx attribute_names register_types).2.2.1,
         (functionsTuple sa entities idx attribute_names register_types).2.2.2) := rfl

set_option maxHeartbeats 3200000 in
theorem convert_bytes (sa : StreamAnalysis) (m : MLModule)
    (disable_optional_sections : Bool)
    (hsucc : (EntityTable.Collect m (!disable_optional_sections)).result = .Success) :
    ConvertMLIRToBEF sa m disable_optional_sections
      = (emitSections
          (BefEmitter.empty.EmitBytes [kBEFMagic1, kBEFMagic2, kBEFVersion0])
          (convertSpecs sa m disable_optional_sections)).result := by
  cases disable_optional_sections with
  | false =>
    simp only [ConvertMLIRToBEF, hsucc]
    simp only [emitLocationInfo_eq]
    simp only [emitDebugInfo_eq]
    simp only [emitStrings_eq]
    simp only [emitAttributes_eq]
    simp only [emitKernels_eq]
    simp only [emitTypes_eq]
    simp only [emitFunctions_eq]
    simp only [Bool.false_eq_true, if_false, Option.isSome_some,
      Option.map_some', Option.getD_some]
    simp only [convertSpecs, Bool.not_false, Bool.false_eq_true, if_false,
      List.cons_append, List.nil_append, emitSections, List.foldl_cons,
      List.foldl_nil, BefEmitter.EmitSectionE]
  | true =>
    simp only [ConvertMLIRToBEF, hsucc]
    simp only [emitLocationInfo_eq]
    simp only [emitDebugInfo_eq]
    simp only [emitStrings_eq]
    simp only [emitAttributes_eq]
    simp only [emitKernels_eq]
    simp only [emitTypes_eq]
    simp only [emitFunctions_eq]
    simp only [Bool.true_eq_false, if_true, Option.isSome_none]
    simp only [convertSpecs, Bool.not_true, Bool.true_eq_false, if_true,
      emitSections, List.foldl_cons, List.foldl_nil, BefEmitter.EmitSectionE]

/-- C2 counterexample: the claim puts the attribute-types sidecar (id 8)
immediately after the attributes section (id 3); on scenario A's module —
whose collection succeeds — the converter instead emits it after the
functions section, so the parsed id order differs from the claimed one. -/
theorem section_order_counterexample :
    (EntityTable.Collect exampleModule (!false)).result = .Success
    ∧ parseSectionIds (ConvertMLIRToBEF trivialStreamAnalysis exampleModule false)
        ≠ some [0, 1, 11, 2, 3, 8, 4, 5, 6, 7] := by
  decide

/-- C2 (amended): on successful collection the sections of the emitted BEF
file appear, by id byte, in the order location-filenames (0),
location-positions (1), debug-info (11), strings (2), attributes (3),
kernels (4), types (5), function-index (6), functions (7); when optional
sections are enabled the sidecar sections attribute-types (8),
attribute-names (9) and register-types (10) follow at the very end, after
the functions section. -/
theorem section_order (sa : StreamAnalysis) (m : MLModule)
    (disable_optional_sections : Bool)
    (hsucc : (EntityTable.Collect m (!disable_optional_sections)).result = .Success) :
    parseSectionIds (ConvertMLIRToBEF sa m disable_optional_sections)
      = some (if disable_optional_sections
          then [0, 1, 11, 2, 3, 4, 5, 6, 7]
          else [0, 1, 11, 2, 3, 4, 5, 6, 7, 8, 9, 10]) := by
  rw [convert_bytes sa m disable_optional_sections hsucc, parseSectionIds,
    emitSections_result]
  have hmag : (BefEmitter.empty.EmitBytes
      [kBEFMagic1, kBEFMagic2, kBEFVersion0]).result
      = [kBEFMagic1, kBEFMagic2, kBEFVersion0] := rfl
  rw [hmag]
  have hlen3 : ([kBEFMagic1, kBEFMagic2, kBEFVersion0] : List Nat).length = 3 := rfl
  rw [hlen3]
  have hdrop : ([kBEFMagic1, kBEFMagic2, kBEFVersion0]
        ++ framesConcat 3 (convertSpecs sa m disable_optional_sections)).drop 3
      = framesConcat 3 (convertSpecs sa m disable_optional_sections) := by
    simp [kBEFMagic1, kBEFMagic2, kBEFVersion0]
  rw [hdrop]
  have hfuel : (convertSpecs sa m disable_optional_sections).length
      ≤ ([kBEFMagic1, kBEFMagic2, kBEFVersion0]
          ++ framesConcat 3 (convertSpecs sa m disable_optional_sections)).length := by
    have := framesConcat_ge 3 (convertSpecs sa m disable_optional_sections)
    simp only [List.length_append]
    omega
  rw [parse_framesConcat _ 3 _ hfuel]
  cases disable_optional_sections with
  | false => rfl
  | true => rfl

/-- Witness for the C2 amended theorem on scenario A's module with the
optional sections enabled. -/
theorem section_order_witness :
    (EntityTable.Collect exampleModule (!false)).result = .Success
    ∧ parseSectionIds (ConvertMLIRToBEF trivialStreamAnalysis exampleModule false)
        = some [0, 1, 11, 2, 3, 4, 5, 6, 7, 8, 9, 10] :=
  ⟨by decide, by
    simpa using section_order trivialStreamAnalysis exampleModule false (by decide)⟩

/-! ### C7: the tensor predicate -/

/-- C7 counterexample: the claim says a dense host tensor with a single
element yields that element read as a boolean, but for a dense tensor of a
floating-point dtype (`F32`, one element, value 1) `GetDHTPredicateValue`
reaches `llvm_unreachable("dtype not supported")` and produces no boolean
at all, rather than the claimed `true`. -/
theorem tensorPredicate_f32_counterexample :
    GetTensorPredicateValue (.dense { dtype := .F32, elements := [1] }) = none
    ∧ ¬ GetTensorPredicateValue (.dense { dtype := .F32, elements := [1] })
        = some (.ok true) := by
  constructor
  · rfl
  · intro h
    simp [GetTensorPredicateValue, GetDHTPredicateValue] at h

/-- C7 (amended): for a dense host tensor of boolean or integer dtype with
a single element, the predicate is that element interpreted as a boolean
(nonzero = true) — dense tensors of other dtypes hit the unreachable
default; for a string host tensor the predicate is false if and only if
the tensor is empty or its first element is the empty string; every other
tensor kind yields the error `tensor predicate does not support type <T>`. -/
theorem tensorPredicate_rule :
    (∀ (dtype : DTypeKind) (x : Int), dtype.predicateSupported = true →
      GetTensorPredicateValue (.dense { dtype := dtype, elements := [x] })
        = some (.ok (x != 0)))
    ∧ (∀ strings : List String,
        GetTensorPredicateValue (.stringHost strings) = some (.ok false) ↔
          strings = [] ∨ strings.headD "" = "")
    ∧ (∀ type_name : String,
        GetTensorPredicateValue (.other type_name)
          = some (.error ("tensor predicate does not support type " ++ type_name))) := by
  refine ⟨?_, ?_, ?_⟩
  · intro dtype x h
    cases dtype <;> simp_all [GetTensorPredicateValue, GetDHTPredicateValue,
      DTypeKind.predicateSupported]
  · intro strings
    cases strings with
    | nil => simp [GetTensorPredicateValue]
    | cons s rest =>
      simp only [GetTensorPredicateValue, List.isEmpty_cons, Bool.not_false,
        Bool.true_and, List.headD_cons, Option.some.injEq]
      constructor
      · intro h
        right
        have : s.isEmpty = true := by
          by_contra hne
          simp only [Bool.not_eq_true] at hne
          simp [hne] at h
        exact (String.isEmpty_iff s).mp this
      · intro h
        rcases h with h | h
        · exact absurd h (by simp)
        · simp [(String.isEmpty_iff s).mpr h]
  · intro type_name
    rfl

/-- Witness for the C7 amended theorem at concrete inputs. -/
theorem tensorPredicate_rule_witness :
    (DTypeKind.predicateSupported .I32 = true)
    ∧ GetTensorPredicateValue (.dense { dtype := .I32, elements := [7] })
        = some (.ok ((7 : Int) != 0)) :=
  ⟨by decide, tensorPredicate_rule.1 .I32 7 (by decide)⟩

/-! ### C8: while-loop cancellation -/

/-- C8: at any iteration boundary at which the execution context exposes a
cancel async value, the loop forwards every result indirect async value to
that cancel value and stops — the condition function is not invoked at
that boundary nor later (`condCalls = 0`); in particular, cancellation set
before the first iteration means `cond_fn` never runs and every result
equals the cancel value. -/
theorem while_cancellation (ectx : ExecutionContext) (cond_fn body_fn : HostFunction)
    (args : List AVal) (iter fuel : Nat) (v : AVal)
    (h : ectx.cancelAt iter = some v) :
    (CoreRtWhileLoopIteration ectx cond_fn body_fn fuel args iter =
      { outcome := .cancelled v, condCalls := 0, bodyCalls := 0 })
    ∧ ((CoreRtWhileLoopIteration ectx cond_fn body_fn fuel args iter).resultValues
          args.length = some (List.replicate args.length v))
    ∧ (iter = 0 → CoreRtWhileLoop ectx cond_fn body_fn args fuel =
        { outcome := .cancelled v, condCalls := 0, bodyCalls := 0 }) := by
  have hstep : CoreRtWhileLoopStep ectx cond_fn body_fn args iter =
      .done { outcome := .cancelled v, condCalls := 0, bodyCalls := 0 } := by
    rw [CoreRtWhileLoopStep, h]
  have hit : CoreRtWhileLoopIteration ectx cond_fn body_fn fuel args iter =
      { outcome := .cancelled v, condCalls := 0, bodyCalls := 0 } := by
    cases fuel <;> rw [CoreRtWhileLoopIteration, hstep]
  refine ⟨hit, ?_, ?_⟩
  · rw [hit, WhileResult.resultValues]
  · intro h0
    subst h0
    rw [CoreRtWhileLoop, hit]

/-- Witness for the C8 theorem: cancellation (an error async value) set
before the first iteration. -/
theorem while_cancellation_witness :
    (({ cancelAt := fun _ => some (.error "cancelled") } : ExecutionContext).cancelAt 0
      = some (.error "cancelled"))
    ∧ CoreRtWhileLoopIteration { cancelAt := fun _ => some (.error "cancelled") }
        id id 5 [.chain] 0 =
      { outcome := .cancelled (.error "cancelled"), condCalls := 0, bodyCalls := 0 } :=
  ⟨rfl, (while_cancellation { cancelAt := fun _ => some (.error "cancelled") }
    id id [.chain] 0 5 (.error "cancelled") rfl).1⟩

/-! ### C9: the non-CPU condition-device error -/

/-- C9: when no cancellation is pending and the condition tensor handle
returned by `cond_fn` (its second output) carries no error but lives on a
device that is not the CPU device, the loop produces the error
`non-cpu device for condition tensor handle` and propagates it to every
result async value. -/
theorem while_noncpu_condition (ectx : ExecutionContext) (cond_fn body_fn : HostFunction)
    (args : List AVal) (iter fuel : Nat) (th : TensorHandle) (t : Tensor)
    (hcancel : ectx.cancelAt iter = none)
    (hcond : (cond_fn args).getD 1 (.error "missing condition value") = .tensorHandle th)
    (hok : th.tensor = .ok t)
    (hdev : th.deviceIsCpu = false) :
    (CoreRtWhileLoopIteration ectx cond_fn body_fn fuel args iter =
      { outcome := .errored "non-cpu device for condition tensor handle",
        condCalls := 1, bodyCalls := 0 })
    ∧ ((CoreRtWhileLoopIteration ectx cond_fn body_fn fuel args iter).resultValues
          args.length
        = some (List.replicate args.length
            (.error "non-cpu device for condition tensor handle"))) := by
  have hstep : CoreRtWhileLoopStep ectx cond_fn body_fn args iter =
      .done { outcome := .errored "non-cpu device for condition tensor handle",
              condCalls := 1, bodyCalls := 0 } := by
    rw [CoreRtWhileLoopStep, hcancel]
    simp only [hcond, ReturnAfterHandlingError, hok, hdev]
    rfl
  have hit : CoreRtWhileLoopIteration ectx cond_fn body_fn fuel args iter =
      { outcome := .errored "non-cpu device for condition tensor handle",
        condCalls := 1, bodyCalls := 0 } := by
    cases fuel <;> rw [CoreRtWhileLoopIteration, hstep]
  exact ⟨hit, by rw [hit, WhileResult.resultValues]⟩

/-- Witness for the C9 theorem: a condition function returning a concrete
boolean tensor handle on a non-CPU device. -/
theorem while_noncpu_condition_witness :
    CoreRtWhileLoopIteration { cancelAt := fun _ => none }
      (fun _ => [.chain, .tensorHandle
        { deviceIsCpu := false, metadata := { dtype := .BOOL, shape := [] },
          tensor := .ok (.dense { dtype := .BOOL, elements := [1] }) }])
      id 5 [.chain] 0 =
    { outcome := .errored "non-cpu device for condition tensor handle",
      condCalls := 1, bodyCalls := 0 } :=
  (while_noncpu_condition { cancelAt := fun _ => none }
    (fun _ => [.chain, .tensorHandle
      { deviceIsCpu := false, metadata := { dtype := .BOOL, shape := [] },
        tensor := .ok (.dense { dtype := .BOOL, elements := [1] }) }])
    id [.chain] 0 5
    { deviceIsCpu := false, metadata := { dtype := .BOOL, shape := [] },
      tensor := .ok (.dense { dtype := .BOOL, elements := [1] }) }
    (.dense { dtype := .BOOL, elements := [1] }) rfl rfl rfl rfl).1

/-! ### C10: `corert.const_string_tensor` -/

/-- C10: when the aggregate holds exactly one string, it is replicated into
every element of the allocated tensor, whatever the shape's element count;
otherwise aggregate element `i` is stored at tensor element `i` (sizes
matching, as the source asserts); the returned handle is concrete with
`String` dtype and the given shape on the host (CPU) device. -/
theorem constStringTensor_rule (ectx : ExecutionContext) (shape : List Int)
    (value : List String) (halloc : ectx.allocSucceeds = true) :
    (value.length = 1 →
      ConstStringTensor ectx shape value =
        .ok { deviceIsCpu := true, metadata := { dtype := .String, shape := shape },
              tensor := .ok (.stringHost (List.replicate
                (TensorMetadata.numElements { dtype := .String, shape := shape })
                (value.getD 0 ""))) })
    ∧ (value.length ≠ 1 →
        value.length = TensorMetadata.numElements { dtype := .String, shape := shape } →
      ConstStringTensor ectx shape value =
        .ok { deviceIsCpu := true, metadata := { dtype := .String, shape := shape },
              tensor := .ok (.stringHost value) }) := by
  constructor
  · intro h1
    rw [ConstStringTensor]
    simp only [halloc, Bool.not_true, Bool.false_eq_true, if_neg, not_false_iff]
    rw [if_pos (by simpa using h1)]
  · intro hne hlen
    rw [ConstStringTensor]
    simp only [halloc, Bool.not_true, Bool.false_eq_true, if_neg, not_false_iff]
    rw [if_neg (by simpa using hne)]
    rw [← hlen, map_getD_range]

/-- Witness for the C10 theorem: a one-string aggregate replicated across a
2×3 shape, via the theorem at concrete inputs. -/
theorem constStringTensor_rule_witness :
    (({} : ExecutionContext).allocSucceeds = true)
    ∧ (["x"].length = 1)
    ∧ ConstStringTensor {} [2, 3] ["x"] =
        .ok { deviceIsCpu := true, metadata := { dtype := .String, shape := [2, 3] },
              tensor := .ok (.stringHost (List.replicate
                (TensorMetadata.numElements { dtype := .String, shape := [2, 3] })
                (["x"].getD 0 ""))) } :=
  ⟨rfl, rfl, (constStringTensor_rule {} [2, 3] ["x"] rfl).1 rfl⟩

end Tfrt
